import Mathlib

/-!
Verification of the exam generation and grading subsystem of the GATE
study-tracking repository (src/ai.ts and the attempts module).

JavaScript numbers are modelled as exact rationals (`ℚ`); `NaN` is modelled
by `Option.none` where it can arise (the result of `Number(...)` coercion).
JSON values are modelled by the inductive type `Json`, and `JSON.parse` by a
fuel-based recursive-descent parser over the character list of the input,
following the JSON grammar (a failed parse, which throws in JavaScript, is
`none` here).
-/

namespace GateSpec

/-- A JSON value, as produced by a successful `JSON.parse`. -/
inductive Json where
  | null
  | bool (b : Bool)
  | num (q : ℚ)
  | str (s : String)
  | arr (elems : List Json)
  | obj (fields : List (String × Json))
deriving Inhabited

/-- Whether a JSON value is the literal `null`. -/
def Json.isNull : Json → Bool
  | .null => true
  | _ => false

/-- JSON whitespace characters (space, tab, line feed, carriage return). -/
def jsonWs (c : Char) : Bool := [' ', '\t', '\n', '\r'].contains c

/-- Drop leading JSON whitespace. -/
def skipWs : List Char → List Char
  | [] => []
  | c :: cs => if jsonWs c then skipWs cs else c :: cs

/-- Decimal digit value of a character, if it is a digit. -/
def digitVal (c : Char) : Option ℕ :=
  if '0' ≤ c && c ≤ '9' then some (c.toNat - '0'.toNat) else none

/-- Value of a digit in a given radix (used for JS hex/octal/binary strings
and `\u` escapes).  Code points: digits 48-57, lowercase a-f 97-102,
uppercase A-F 65-70. -/
def radixDigitVal (radix : ℕ) (c : Char) : Option ℕ :=
  let n := c.toNat
  let v : Option ℕ :=
    if 48 ≤ n ∧ n ≤ 57 then some (n - 48)
    else if 97 ≤ n ∧ n ≤ 102 then some (n - 87)
    else if 65 ≤ n ∧ n ≤ 70 then some (n - 55)
    else none
  match v with
  | some d => if d < radix then some d else none
  | none => none

/-- Leading run of decimal digits, together with the rest of the input. -/
def takeDigits : List Char → List ℕ × List Char
  | [] => ([], [])
  | c :: cs =>
    match digitVal c with
    | some d => let (ds, rest) := takeDigits cs; (d :: ds, rest)
    | none => ([], c :: cs)

/-- Natural number denoted by a digit list (most significant first). -/
def digitsToNat (ds : List ℕ) : ℕ := ds.foldl (fun acc d => 10 * acc + d) 0

/-- Rational denoted by integer digits, fraction digits and a signed exponent. -/
def decimalValue (intDs fracDs : List ℕ) (ex : ℤ) : ℚ :=
  let base : ℚ := (digitsToNat intDs : ℚ) + (digitsToNat fracDs : ℚ) / ((10 : ℚ) ^ fracDs.length)
  if 0 ≤ ex then base * (10 : ℚ) ^ ex.toNat else base / (10 : ℚ) ^ (-ex).toNat

/-- Parse a JSON number (`-? (0 | [1-9]digits) frac? exp?`) from the input. -/
def parseJsonNumber (cs : List Char) : Option (ℚ × List Char) :=
  let (neg, cs1) : Bool × List Char :=
    match cs with
    | '-' :: rest => (true, rest)
    | _ => (false, cs)
  let intPart : Option (List ℕ × List Char) :=
    match cs1 with
    | '0' :: rest => some ([0], rest)
    | c :: rest =>
      match digitVal c with
      | some d => if d = 0 then none else
          let (ds, rest2) := takeDigits rest; some (d :: ds, rest2)
      | none => none
    | [] => none
  match intPart with
  | none => none
  | some (intDs, cs2) =>
    let fracPart : Option (List ℕ × List Char) :=
      match cs2 with
      | '.' :: rest =>
        let (ds, rest2) := takeDigits rest
        if ds.isEmpty then none else some (ds, rest2)
      | _ => some ([], cs2)
    match fracPart with
    | none => none
    | some (fracDs, cs3) =>
      let expPart : Option (ℤ × List Char) :=
        match cs3 with
        | c :: rest =>
          if c == 'e' || c == 'E' then
            let (esign, rest1) : Bool × List Char :=
              match rest with
              | '+' :: r => (false, r)
              | '-' :: r => (true, r)
              | r => (false, r)
            let (eds, rest2) := takeDigits rest1
            if eds.isEmpty then none
            else some (if esign then -(digitsToNat eds : ℤ) else (digitsToNat eds : ℤ), rest2)
          else some (0, c :: rest)
        | [] => some (0, [])
      match expPart with
      | none => none
      | some (ex, cs4) =>
        let q := decimalValue intDs fracDs ex
        some (if neg then -q else q, cs4)

/-- Parse the body of a JSON string (after the opening quote), handling the
escape sequences of the JSON grammar; returns the decoded characters and the
input after the closing quote. -/
def parseJsonStrBody : ℕ → List Char → Option (List Char × List Char)
  | 0, _ => none
  | _, [] => none
  | Nat.succ fuel, c :: cs =>
    if c = '"' then some ([], cs)
    else if c = '\\' then
      match cs with
      | [] => none
      | e :: cs2 =>
        let dec : Option (Char × List Char) :=
          if e = '"' then some ('"', cs2)
          else if e = '\\' then some ('\\', cs2)
          else if e = '/' then some ('/', cs2)
          else if e = 'b' then some ('\x08', cs2)
          else if e = 'f' then some ('\x0c', cs2)
          else if e = 'n' then some ('\n', cs2)
          else if e = 'r' then some ('\r', cs2)
          else if e = 't' then some ('\t', cs2)
          else if e = 'u' then
            match cs2 with
            | h1 :: h2 :: h3 :: h4 :: cs3 =>
              match radixDigitVal 16 h1, radixDigitVal 16 h2,
                    radixDigitVal 16 h3, radixDigitVal 16 h4 with
              | some a, some b, some c3, some d =>
                some (Char.ofNat (((a * 16 + b) * 16 + c3) * 16 + d), cs3)
              | _, _, _, _ => none
            | _ => none
          else none
        match dec with
        | some (ch, rest) =>
          match parseJsonStrBody fuel rest with
          | some (out, rest2) => some (ch :: out, rest2)
          | none => none
        | none => none
    else
      match parseJsonStrBody fuel cs with
      | some (out, rest2) => some (c :: out, rest2)
      | none => none

mutual

/-- Parse one JSON value; fuel-based recursive descent. -/
def parseJsonVal : ℕ → List Char → Option (Json × List Char)
  | 0, _ => none
  | Nat.succ fuel, cs =>
    match skipWs cs with
    | [] => none
    | '{' :: rest =>
      match skipWs rest with
      | '}' :: rest2 => some (.obj [], rest2)
      | rest2 =>
        match parseJsonFields fuel rest2 with
        | some (fs, rest3) => some (.obj fs, rest3)
        | none => none
    | '[' :: rest =>
      match skipWs rest with
      | ']' :: rest2 => some (.arr [], rest2)
      | rest2 =>
        match parseJsonItems fuel rest2 with
        | some (vs, rest3) => some (.arr vs, rest3)
        | none => none
    | '"' :: rest =>
      match parseJsonStrBody (rest.length + 1) rest with
      | some (out, rest2) => some (.str (String.mk out), rest2)
      | none => none
    | 't' :: rest =>
      if rest.take 3 = ['r', 'u', 'e'] then some (.bool true, rest.drop 3) else none
    | 'f' :: rest =>
      if rest.take 4 = ['a', 'l', 's', 'e'] then some (.bool false, rest.drop 4) else none
    | 'n' :: rest =>
      if rest.take 3 = ['u', 'l', 'l'] then some (.null, rest.drop 3) else none
    | cs1 =>
      match parseJsonNumber cs1 with
      | some (q, rest) => some (.num q, rest)
      | none => none

/-- Parse the items of a non-empty JSON array, up to and including the
closing bracket. -/
def parseJsonItems : ℕ → List Char → Option (List Json × List Char)
  | 0, _ => none
  | Nat.succ fuel, cs =>
    match parseJsonVal fuel cs with
    | none => none
    | some (v, rest) =>
      match skipWs rest with
      | ',' :: rest2 =>
        match parseJsonItems fuel rest2 with
        | some (vs, rest3) => some (v :: vs, rest3)
        | none => none
      | ']' :: rest2 => some ([v], rest2)
      | _ => none

/-- Parse the fields of a non-empty JSON object, up to and including the
closing brace. -/
def parseJsonFields : ℕ → List Char → Option (List (String × Json) × List Char)
  | 0, _ => none
  | Nat.succ fuel, cs =>
    match skipWs cs with
    | '"' :: rest =>
      match parseJsonStrBody (rest.length + 1) rest with
      | none => none
      | some (key, rest2) =>
        match skipWs rest2 with
        | ':' :: rest3 =>
          match parseJsonVal fuel rest3 with
          | none => none
          | some (v, rest4) =>
            match skipWs rest4 with
            | ',' :: rest5 =>
              match parseJsonFields fuel rest5 with
              | some (fs, rest6) => some ((String.mk key, v) :: fs, rest6)
              | none => none
            | '}' :: rest5 => some ([(String.mk key, v)], rest5)
            | _ => none
        | _ => none
    | _ => none

end

/-- The embedding of `JSON.parse`: parses the whole string as a single JSON
value (here only used where an array or a scalar is expected); `none` models
a thrown `SyntaxError`, including trailing non-whitespace input. -/
def jsonParse (s : String) : Option Json :=
  let cs := s.toList
  match parseJsonVal (2 * cs.length + 4) cs with
  | some (v, rest) => if (skipWs rest).isEmpty then some v else none
  | none => none

/-! ### JavaScript number/string coercions -/

/-- JavaScript whitespace trimmed by `Number(string)` (the common cases). -/
def jsWsChar (c : Char) : Bool := [' ', '\t', '\n', '\r', '\x0b', '\x0c'].contains c

/-- Parse a non-empty digit string in the given radix. -/
def parseRadixNat (radix : ℕ) : List Char → Option ℕ
  | [] => none
  | cs => go cs 0
where
  go : List Char → ℕ → Option ℕ
    | [], acc => some acc
    | c :: cs, acc =>
      match radixDigitVal radix c with
      | some d => go cs (radix * acc + d)
      | none => none

/-- Parse a signed JS decimal string literal (`[+-]? digits? (. digits?)? exp?`,
with at least one digit), the whole input. -/
def parseSignedDec (cs : List Char) : Option ℚ :=
  let (neg, cs1) : Bool × List Char :=
    match cs with
    | '-' :: rest => (true, rest)
    | '+' :: rest => (false, rest)
    | _ => (false, cs)
  -- `Infinity` is a valid JS numeric string but not a finite number; it is
  -- modelled as `none`, which gives the same scoring verdicts as ±∞ would
  -- (an infinite operand never satisfies |u - c| < 0.01).
  if cs1 = "Infinity".toList then none
  else
    let (intDs, cs2) := takeDigits cs1
    let fracPart : Option (List ℕ × List Char) :=
      match cs2 with
      | '.' :: rest => let (ds, rest2) := takeDigits rest; some (ds, rest2)
      | _ => some ([], cs2)
    match fracPart with
    | none => none
    | some (fracDs, cs3) =>
      if intDs.isEmpty && fracDs.isEmpty then none
      else
        let expPart : Option (ℤ × List Char) :=
          match cs3 with
          | c :: rest =>
            if c == 'e' || c == 'E' then
              let (esign, rest1) : Bool × List Char :=
                match rest with
                | '+' :: r => (false, r)
                | '-' :: r => (true, r)
                | r => (false, r)
              let (eds, rest2) := takeDigits rest1
              if eds.isEmpty then none
              else some (if esign then -(digitsToNat eds : ℤ) else (digitsToNat eds : ℤ), rest2)
            else none
          | [] => some (0, [])
        match expPart with
        | none => none
        | some (ex, cs4) =>
          if cs4.isEmpty then
            let q := decimalValue intDs fracDs ex
            some (if neg then -q else q)
          else none

/-- The embedding of JavaScript `Number(string)`: trim whitespace, empty
string is `0`, radix-prefixed and signed decimal literals; `none` models
`NaN` (and infinite results, see `parseSignedDec`). -/
def strToNum (s : String) : Option ℚ :=
  let cs := ((s.toList.dropWhile jsWsChar).reverse.dropWhile jsWsChar).reverse
  match cs with
  | [] => some 0
  | '0' :: 'x' :: ds => (parseRadixNat 16 ds).map (fun n => (n : ℚ))
  | '0' :: 'X' :: ds => (parseRadixNat 16 ds).map (fun n => (n : ℚ))
  | '0' :: 'o' :: ds => (parseRadixNat 8 ds).map (fun n => (n : ℚ))
  | '0' :: 'O' :: ds => (parseRadixNat 8 ds).map (fun n => (n : ℚ))
  | '0' :: 'b' :: ds => (parseRadixNat 2 ds).map (fun n => (n : ℚ))
  | '0' :: 'B' :: ds => (parseRadixNat 2 ds).map (fun n => (n : ℚ))
  | _ => parseSignedDec cs

/-- JavaScript `String(number)`. Exact for integral values; the shortest
round-trip decimal rendering of non-integral doubles is not modelled (no
claim constrains those strings), a fraction rendering stands in for it. -/
def numToStr (q : ℚ) : String :=
  if q.den = 1 then toString q.num
  else toString q.num ++ "/" ++ toString q.den

mutual

/-- JavaScript `String(value)` on a JSON value. -/
def jsToString : Json → String
  | .null => "null"
  | .bool true => "true"
  | .bool false => "false"
  | .num q => numToStr q
  | .str s => s
  | .arr elems => jsArrJoin elems
  | .obj _ => "[object Object]"

/-- Embeds `Array.prototype.toString`: comma-join, `null` elements render empty. -/
def jsArrJoin : List Json → String
  | [] => ""
  | [e] => if e.isNull then "" else jsToString e
  | e :: es => (if e.isNull then "" else jsToString e) ++ "," ++ jsArrJoin es

end

/-- JavaScript truthiness of a possibly-`undefined` JSON value
(`none` models `undefined`). -/
def jsTruthy : Option Json → Bool
  | none => false
  | some .null => false
  | some (.bool b) => b
  | some (.num q) => !(q == 0)
  | some (.str s) => !(s == "")
  | some (.arr _) => true
  | some (.obj _) => true

/-- JavaScript property read `value[key]` on a non-`null` JSON value:
object lookup takes the last binding of a duplicated key (as `JSON.parse`
does); a missing field, or any field on a primitive or array, is
`undefined` (`none`). Reads on `null` throw and are handled separately
(`normElem`). -/
def jsGetD (v : Json) (key : String) : Option Json :=
  match v with
  | .obj fields => (fields.reverse.find? (fun p => p.1 == key)).map (·.2)
  | _ => none

/-! ### The array-extraction regex of the normalizer -/

/-- Index of the first occurrence of a character. -/
def firstIdxOf (c : Char) : List Char → Option ℕ
  | [] => none
  | x :: xs =>
    if x = c then some 0
    else (firstIdxOf c xs).map (· + 1)

/-- Index of the last occurrence of a character. -/
def lastIdxOf (c : Char) (cs : List Char) : Option ℕ :=
  (firstIdxOf c cs.reverse).map (fun r => cs.length - 1 - r)

/-- The embedding of `content.match(/\x5b[\s\S]*\x5d/)`: the greedy regex
matches from the first opening bracket to the last closing bracket, when the
latter comes after the former; otherwise there is no match. -/
def extractArr (s : String) : Option String :=
  let cs := s.toList
  match firstIdxOf '[' cs, lastIdxOf ']' cs with
  | some i, some j =>
    if i < j then some (String.mk ((cs.drop i).take (j - i + 1))) else none
  | _, _ => none

/-! ### The Response Normalizer (src/ai.ts lines 132-172; the identical code
appears again at lines 204-244 in the Anthropic flow, so one embedding
serves both) -/

/-- Question type tag. -/
inductive QType where
  | mcq
  | nat
deriving DecidableEq

/-- Errors of the normalization step: `parseErr` is the thrown
"Failed to parse ..." error; `typeErr` is the `TypeError` thrown by a
property read on a `null` array element (uncaught by the surrounding code). -/
inductive NormErr where
  | parseErr
  | typeErr
deriving DecidableEq

/-- A question as returned by the provider normalization (and by the local
generator): the shape of the `RawQuestion` objects built at src/ai.ts
lines 150-170.  `options` elements stay raw JSON values: the source copies
`q.options` without coercing its elements to strings. -/
structure NormQuestion where
  id : ℕ
  qtype : QType
  question : String
  options : Option (List Json)
  answer : Json
  marks : ℕ
  topic : String
  explanation : Option String

/-- Embeds `String(q.topic ?? topics[idx % topics.length])` fallback value: with an
empty topic pool the index is `NaN`, the lookup `undefined`, and
`String(undefined)` is the text "undefined". -/
def topicFallback (topics : List String) (idx : ℕ) : String :=
  if topics.length = 0 then "undefined"
  else topics.getD (idx % topics.length) ""

/-- Embeds `q.type === "mcq" ? "mcq" : q.type === "nat" ? "nat" : "mcq"`. -/
def normType (j : Option Json) : QType :=
  match j with
  | some (.str s) => if s = "mcq" then .mcq else if s = "nat" then .nat else .mcq
  | _ => .mcq

/-- Embeds `q.marks === 2 ? 2 : 1`. -/
def normMarks (j : Option Json) : ℕ :=
  match j with
  | some (.num m) => if m = 2 then 2 else 1
  | _ => 1

/-- Embeds `String(x ?? fallback)` where the fallback is a plain string. -/
def strOrDefault (j : Option Json) (fallback : String) : String :=
  match j with
  | none => fallback
  | some .null => fallback
  | some j => jsToString j

/-- Embeds `Array.isArray(q.options) && q.options.length === 4 ? q.options :
["A","B","C","D"]`. -/
def normOptions (j : Option Json) : List Json :=
  match j with
  | some (.arr os) =>
    if os.length = 4 then os else [.str "A", .str "B", .str "C", .str "D"]
  | _ => [.str "A", .str "B", .str "C", .str "D"]

/-- Embeds `typeof q.answer === "number" && q.answer >= 0 && q.answer <= 3 ?
q.answer : 0`. -/
def normMcqAnswer (j : Option Json) : ℚ :=
  match j with
  | some (.num a) => if 0 ≤ a ∧ a ≤ 3 then a else 0
  | _ => 0

/-- Embeds `typeof q.answer === "number" || typeof q.answer === "string" ?
q.answer : "0"`. -/
def normNatAnswer (j : Option Json) : Json :=
  match j with
  | some (.num a) => .num a
  | some (.str s) => .str s
  | _ => .str "0"

/-- Embeds `...(q.explanation ? { explanation: String(q.explanation) } : {})` —
note the source consults only the element, not `includeExplanations`. -/
def normExplanation (j : Option Json) : Option String :=
  match j with
  | some j => if jsTruthy (some j) then some (jsToString j) else none
  | none => none

/-- Normalize one parsed array element into a question (the body of the
`.map` at src/ai.ts line 143).  A `null` element throws a `TypeError` at the
first property read (`q.type`). -/
def normElem (topics : List String) (idx : ℕ) (q : Json) : Except NormErr NormQuestion :=
  if q.isNull then .error .typeErr
  else
    match normType (jsGetD q "type") with
    | .mcq =>
      .ok { id := idx + 1, qtype := .mcq,
            question := strOrDefault (jsGetD q "question") "Untitled",
            options := some (normOptions (jsGetD q "options")),
            answer := .num (normMcqAnswer (jsGetD q "answer")),
            marks := normMarks (jsGetD q "marks"),
            topic := strOrDefault (jsGetD q "topic") (topicFallback topics idx),
            explanation := normExplanation (jsGetD q "explanation") }
    | .nat =>
      .ok { id := idx + 1, qtype := .nat,
            question := strOrDefault (jsGetD q "question") "Untitled",
            options := none,
            answer := normNatAnswer (jsGetD q "answer"),
            marks := normMarks (jsGetD q "marks"),
            topic := strOrDefault (jsGetD q "topic") (topicFallback topics idx),
            explanation := normExplanation (jsGetD q "explanation") }

/-- Normalize the elements of the parsed array in order, numbering from
`idx` (the orchestrator starts at 0, so ids run from 1). -/
def normElems (topics : List String) : ℕ → List Json → Except NormErr (List NormQuestion)
  | _, [] => .ok []
  | idx, e :: es =>
    match normElem topics idx e with
    | .error err => .error err
    | .ok nq =>
      match normElems topics (idx + 1) es with
      | .error err => .error err
      | .ok rest => .ok (nq :: rest)

/-- The full normalization of one provider's raw text (src/ai.ts lines
132-172): extract the bracketed substring (falling back to the whole text),
`JSON.parse` it, require an array, then map the first `numQuestions`
elements through `normElem`. -/
def normalizeContent (numQuestions : ℕ) (topics : List String)
    (content : String) : Except NormErr (List NormQuestion) :=
  match jsonParse ((extractArr content).getD content) with
  | some (.arr elems) => normElems topics 0 (elems.take numQuestions)
  | _ => .error .parseErr

/-! ### The Local Generator (src/ai.ts lines 250-306) -/

/-- Truncation toward zero, as JavaScript `%` and `| 0` use. -/
def ratTrunc (q : ℚ) : ℤ := if 0 ≤ q then ⌊q⌋ else ⌈q⌉

/-- Wrap an integer into signed 32-bit range (`ToInt32`). -/
def toInt32 (n : ℤ) : ℤ := (n + 2 ^ 31) % 2 ^ 32 - 2 ^ 31

/-- JavaScript remainder `a % b` (sign of the dividend, truncated division). -/
def jsMod (a b : ℚ) : ℚ := a - b * (ratTrunc (a / b) : ℚ)

/-- JavaScript `x | 0`. -/
def jsOrZero (q : ℚ) : ℤ := toInt32 (ratTrunc q)

/-- JavaScript array indexing: a negative or out-of-range index reads
`undefined` (`none`). -/
def jsIndex {α : Type} (l : List α) (i : ℤ) : Option α :=
  if 0 ≤ i then l.get? i.toNat else none

/-- An entry of the fixed multiple-choice template bank. -/
structure LocalMCQ where
  q : String
  options : List String
  ans : ℚ
  topic : String

/-- An entry of the fixed numeric-answer template bank (all three stored
answers are numbers, though the source type also admits strings). -/
structure LocalNAT where
  q : String
  ans : ℚ
  topic : String

/-- The `baseMCQs` bank (src/ai.ts lines 256-265). -/
def baseMCQs : List LocalMCQ :=
  [ { q := "Which data structure is most suitable for implementing a LRU cache?",
      options := ["Queue", "Stack", "Hash map + Doubly linked list", "Binary heap"],
      ans := 2, topic := "programming_and_dsa" },
    { q := "Which of the following is a lossless-join, dependency preserving normal form?",
      options := ["1NF", "2NF", "3NF", "BCNF (not always dependency preserving)"],
      ans := 2, topic := "database_management" },
    { q := "Which scheduling algorithm can lead to starvation without aging?",
      options := ["Round Robin", "FCFS", "SJF", "Priority (preemptive)"],
      ans := 3, topic := "operating_systems" },
    { q := "In networking, which layer is responsible for end-to-end reliable delivery?",
      options := ["Application", "Transport", "Network", "Link"],
      ans := 1, topic := "computer_networks" },
    { q := "Which of the following is NOT typically part of a CPU pipeline stage?",
      options := ["Fetch", "Decode", "Execute", "Fragment"],
      ans := 3, topic := "computer_organization" },
    { q := "Which language class is recognized by a deterministic finite automaton (DFA)?",
      options := ["Context-sensitive", "Context-free", "Regular", "Recursively enumerable"],
      ans := 2, topic := "theory_of_computation" },
    { q := "Which phase of a compiler performs lexical analysis?",
      options := ["Frontend: Lexer", "Frontend: Parser", "Backend: Code generation", "Optimizer"],
      ans := 0, topic := "compiler_design" },
    { q := "Which statement is TRUE about a simple undirected graph?",
      options := ["Self-loops are allowed", "Multiple edges are allowed",
                  "Degree sum equals twice the number of edges", "All nodes have the same degree"],
      ans := 2, topic := "discrete_mathematics" } ]

/-- The `baseNATs` bank (src/ai.ts lines 266-270). -/
def baseNATs : List LocalNAT :=
  [ { q := "Compute the determinant of [[1,2],[3,4]].", ans := -2, topic := "linear_algebra" },
    { q := "If X~Bernoulli(p) with p=0.3, what is Var(X)? Enter as decimal.",
      ans := 21 / 100, topic := "probability_statistics" },
    { q := "Find the derivative of f(x)=3x^2 at x=2.", ans := 12, topic := "programming_and_dsa" } ]

/-- Generic explanation attached to local multiple-choice questions. -/
def mcqGenericExplanation : String :=
  "Reason about definitions and standard properties; select the logically valid option."

/-- Generic explanation attached to local numeric-answer questions. -/
def natGenericExplanation : String :=
  "Apply standard formula or computation to obtain the numeric result."

/-- One iteration of the local generator loop (src/ai.ts lines 272-304).
The bank lookup index is `(i / 2) % bank.length | 0` on JavaScript numbers;
a lookup that produced `undefined` would make the following property reads
throw, modelled by the `.error` branch. -/
def mkLocalQ (topicsList : List String) (withExplanations : Bool) (i : ℕ) :
    Except Unit NormQuestion :=
  let marks : ℕ := if i % 3 = 0 then 2 else 1
  -- `topicsList[i % topicsList.length] ?? "general_aptitude"`: with an empty
  -- pool the index is NaN and the read `undefined`, so the default applies.
  let topic : String :=
    if topicsList.length = 0 then "general_aptitude"
    else topicsList.getD (i % topicsList.length) ""
  if i % 2 = 0 then
    match jsIndex baseMCQs (jsOrZero (jsMod ((i : ℚ) / 2) (baseMCQs.length : ℚ))) with
    | none => .error ()
    | some pick =>
      .ok { id := i + 1, qtype := .mcq, question := pick.q,
            options := some (pick.options.map Json.str),
            answer := .num pick.ans, marks,
            topic := if pick.topic = "" then topic else pick.topic,
            explanation := if withExplanations then some mcqGenericExplanation else none }
  else
    match jsIndex baseNATs (jsOrZero (jsMod ((i : ℚ) / 2) (baseNATs.length : ℚ))) with
    | none => .error ()
    | some pick =>
      .ok { id := i + 1, qtype := .nat, question := pick.q, options := none,
            answer := .num pick.ans, marks,
            topic := if pick.topic = "" then topic else pick.topic,
            explanation := if withExplanations then some natGenericExplanation else none }

/-- The generator loop from index `i`, producing `k` more questions. -/
def buildLocalAux (topicsList : List String) (withExplanations : Bool) :
    ℕ → ℕ → Except Unit (List NormQuestion)
  | _, 0 => .ok []
  | i, Nat.succ k =>
    match mkLocalQ topicsList withExplanations i with
    | .error e => .error e
    | .ok nq =>
      match buildLocalAux topicsList withExplanations (i + 1) k with
      | .error e => .error e
      | .ok rest => .ok (nq :: rest)

/-- The local fallback generator `buildLocalQuestions` (src/ai.ts lines
250-306): re-clamps its count to [5, 65] and runs the loop. -/
def buildLocalQuestions (n : ℕ) (topicsList : List String)
    (withExplanations : Bool) : Except Unit (List NormQuestion) :=
  let total := max 5 (min 65 n)
  buildLocalAux topicsList withExplanations 0 total

/-! ### The Fallback Orchestrator (src/ai.ts lines 308-388)

The network is abstracted into an oracle `env : ℕ → CallResult` giving the
outcome of the n-th outbound call the handler makes: `netErr` stands for a
thrown fetch error, a non-2xx response, or an unreadable response body (all
of which throw before normalization); `content body` stands for a response
whose extracted message text is `body`.  The request side (model name,
prompt, temperature, max tokens) only influences what the oracle answers,
so it is absorbed into the oracle. -/

/-- Outcome of one outbound provider call. -/
inductive CallResult where
  | netErr
  | content (body : String)

/-- Error of one provider attempt, as seen by the orchestrator. -/
inductive ProvErr where
  | net
  | norm (e : NormErr)
deriving DecidableEq

/-- One provider attempt: call, then normalize (the bodies of
`tryOnceOpenRouter` and `tryAnthropic` both reduce to this under the
oracle abstraction). -/
def tryProv (numQuestions : ℕ) (topics : List String) (outcome : CallResult) :
    Except ProvErr (List NormQuestion) :=
  match outcome with
  | .netErr => .error .net
  | .content body =>
    match normalizeContent numQuestions topics body with
    | .ok qs => .ok qs
    | .error e => .error (.norm e)

/-- Identity of a generation candidate, for recording the attempt order. -/
inductive Candidate where
  | anthropic
  | openrouter (model : String)
deriving DecidableEq

/-- The fixed OpenRouter model priority list (src/ai.ts lines 92-96). -/
def models : List String :=
  ["anthropic/claude-3-haiku", "mistralai/mixtral-8x7b-instruct", "openai/gpt-4o-mini"]

/-- The `for (const model of models)` loop with its per-model try/catch:
returns the first success (if any) and the list of candidates attempted,
consuming oracle indices from `i`. -/
def tryModelsFrom (numQuestions : ℕ) (topics : List String) (env : ℕ → CallResult) :
    ℕ → List String → Option (List NormQuestion) × List Candidate
  | _, [] => (none, [])
  | i, m :: ms =>
    match tryProv numQuestions topics (env i) with
    | .ok qs => (some qs, [.openrouter m])
    | .error _ =>
      ((tryModelsFrom numQuestions topics env (i + 1) ms).1,
       .openrouter m :: (tryModelsFrom numQuestions topics env (i + 1) ms).2)

/-- Difficulty argument (affects only the prompt text, which the oracle
absorbs). -/
inductive Difficulty where
  | easy
  | medium
  | hard
  | mixed
deriving DecidableEq

/-- Arguments of the `generateExam` action.  `numQuestions` is a JavaScript
number; the spec's external interface types it as an integer, embedded
as `ℤ`. -/
structure GenArgs where
  subjectMix : Option (List String) := none
  numQuestions : Option ℤ := none
  difficulty : Option Difficulty := none
  includeExplanations : Option Bool := none

/-- Embeds `Math.min(Math.max(args.numQuestions ?? 10, 5), 65)` (src/ai.ts:42). -/
def clampCount (n : Option ℤ) : ℕ := (min 65 (max (n.getD 10) 5)).toNat

/-- The default topic pool (src/ai.ts lines 48-60). -/
def defaultTopics : List String :=
  ["programming_and_dsa", "database_management", "operating_systems",
   "computer_networks", "computer_organization", "theory_of_computation",
   "compiler_design", "discrete_mathematics", "linear_algebra",
   "probability_statistics", "general_aptitude"]

/-- Topic pool selection (src/ai.ts lines 46-60). -/
def examTopics (args : GenArgs) : List String :=
  match args.subjectMix with
  | some l => if l.length > 0 then l else defaultTopics
  | none => defaultTopics

/-- The clamped question count used throughout the handler. -/
def examCount (args : GenArgs) : ℕ := clampCount args.numQuestions

/-- Embeds `args.includeExplanations ?? true`. -/
def examIncl (args : GenArgs) : Bool := args.includeExplanations.getD true

/-- The `generateExam` handler (src/ai.ts lines 308-388) under the oracle
abstraction, returning both the result and the ordered list of candidates it
attempted.  Oracle indices follow the call order of the source: with the
Anthropic key the calls are Anthropic (0), the three models (1-3), and the
final `tryOnceOpenRouter(models[0])` retry (4); without it the models are
0-2 and the retry is 3.  `buildLocalQuestions` errors (which cannot occur,
see the theorems) would propagate, as a throw inside a catch block does. -/
def generateExamT (args : GenArgs) (hasAnthropicKey hasOpenRouterKey : Bool)
    (env : ℕ → CallResult) : Except Unit (List NormQuestion) × List Candidate :=
  if hasAnthropicKey then
    match tryProv (examCount args) (examTopics args) (env 0) with
    | .ok qs => (.ok qs, [.anthropic])
    | .error _ =>
      if hasOpenRouterKey then
        match tryModelsFrom (examCount args) (examTopics args) env 1 models with
        | (some qs, trace) => (.ok qs, .anthropic :: trace)
        | (none, trace) =>
          match tryProv (examCount args) (examTopics args) (env 4) with
          | .ok qs => (.ok qs, .anthropic :: (trace ++ [.openrouter (models.headD "")]))
          | .error _ =>
            (buildLocalQuestions (examCount args) (examTopics args) (examIncl args),
             .anthropic :: (trace ++ [.openrouter (models.headD "")]))
      else
        (buildLocalQuestions (examCount args) (examTopics args) (examIncl args), [.anthropic])
  else if hasOpenRouterKey then
    match tryModelsFrom (examCount args) (examTopics args) env 0 models with
    | (some qs, trace) => (.ok qs, trace)
    | (none, trace) =>
      -- the `if (anthropicKey)` fallback at src/ai.ts:360 is dead here
      -- (this branch has no Anthropic key); next is the last OpenRouter
      -- attempt of lines 370-379, then the local fallback
      match tryProv (examCount args) (examTopics args) (env 3) with
      | .ok qs => (.ok qs, trace ++ [.openrouter (models.headD "")])
      | .error _ =>
        (buildLocalQuestions (examCount args) (examTopics args) (examIncl args),
         trace ++ [.openrouter (models.headD "")])
  else
    (buildLocalQuestions (examCount args) (examTopics args) (examIncl args), [])

/-- The observable result of `generateExam` (the action's return value). -/
def generateExam (args : GenArgs) (hasAnthropicKey hasOpenRouterKey : Bool)
    (env : ℕ → CallResult) : Except Unit (List NormQuestion) :=
  (generateExamT args hasAnthropicKey hasOpenRouterKey env).1

/-! ### The exam-attempt module (src/unnamed/part_001)

The database is modelled as an association list from attempt ids to attempt
records; the ambient current user is passed explicitly as `Option String`
(the spec's own design note replaces the implicit lookup by an explicit
identity parameter).  Mutations return their result (or thrown error)
together with the database after the call. -/

/-- A submitted answer value (`v.union(v.number(), v.string())`). -/
inductive AnsV where
  | num (q : ℚ)
  | str (s : String)
deriving DecidableEq

/-- A question as validated by `questionValidator` (part_001 lines
115-124).  `id` is a JavaScript number; every code path that builds
questions uses integers, embedded as `ℤ`. -/
structure Question where
  id : ℤ
  qtype : QType
  question : String := ""
  options : Option (List String) := none
  answer : Option AnsV := none
  marks : Option ℚ := none
  topic : Option String := none
  explanation : Option String := none
deriving DecidableEq

/-- One entry of the returned `mistakes` list. -/
structure Mistake where
  id : ℤ
  topic : String
  correct : String
  yours : String
deriving DecidableEq

/-- The stored guidance object. -/
structure Guidance where
  weakTopics : List String
  suggestions : List String
deriving DecidableEq

/-- An `examAttempts` row. -/
structure Attempt where
  userId : String
  questions : List Question
  answers : List (String × AnsV)
  score : ℕ
  total : ℕ
  durationSec : ℕ
  guidance : Guidance
  completed : Bool
  startedAt : ℚ
  submittedAt : Option ℚ
deriving DecidableEq

/-- The attempts table. -/
abbrev Db := List (ℕ × Attempt)

/-- Embeds `ctx.db.get(id)`. -/
def dbGet (db : Db) (attemptId : ℕ) : Option Attempt :=
  (db.find? (fun p => p.1 == attemptId)).map (·.2)

/-- Embeds `ctx.db.patch(id, ...)`: replace the row in place. -/
def dbPatch (db : Db) (attemptId : ℕ) (att : Attempt) : Db :=
  db.map (fun p => if p.1 == attemptId then (p.1, att) else p)

/-- Lookup in the submitted-answers record.  `args.answers` is a JavaScript
record, so its keys are unique; an association list with first-match lookup
models it. -/
def lookupAns (answers : List (String × AnsV)) (key : String) : Option AnsV :=
  (answers.find? (fun p => p.1 == key)).map (·.2)

/-- Embeds `typeof x === "number" ? x : Number(x)` applied to an answer value that
may be absent (`Number(undefined)` is `NaN`, modelled `none`). -/
def ansToNum : Option AnsV → Option ℚ
  | some (.num q) => some q
  | some (.str s) => strToNum s
  | none => none

/-- Embeds `String(value)` on an answer value. -/
def ansToString : AnsV → String
  | .num q => numToStr q
  | .str s => s

/-- Embeds `(q.topic ?? "general_aptitude").toString()`. -/
def topicOf (q : Question) : String := q.topic.getD "general_aptitude"

/-- Whether one question is scored correct (part_001 lines 187-203).  For a
multiple-choice question `correctIndex` is the stored answer when it is a
number and `-1` otherwise. -/
def scoreQuestion (q : Question) (userAns : Option AnsV) : Bool :=
  match q.qtype with
  | .mcq =>
    match userAns with
    | some (.num v) =>
      v == (match q.answer with
            | some (.num a) => a
            | _ => -1)
    | _ => false
  | .nat =>
    match ansToNum q.answer, ansToNum userAns with
    | some c, some u => decide (|u - c| < 1 / 100)
    | _, _ => false

/-- The `mistakes` entry pushed for a missed question (part_001 lines
193-198 and 207-212). -/
def mistakeFor (q : Question) (topic : String) (userAns : Option AnsV) : Mistake :=
  match q.qtype with
  | .mcq =>
    { id := q.id, topic,
      correct := numToStr (match q.answer with
                           | some (.num a) => a
                           | _ => -1),
      yours := match userAns with
               | none => "blank"
               | some v => ansToString v }
  | .nat =>
    { id := q.id, topic,
      correct := match q.answer with
                 | none => ""
                 | some v => ansToString v,
      yours := match userAns with
               | none => "blank"
               | some v => ansToString v }

/-- The property names a fresh `\x7b\x7d` object inherits from
`Object.prototype`, all with truthy values (methods, and the `__proto__`
accessor returning the prototype object). -/
def objectProtoKeys : List String :=
  ["constructor", "hasOwnProperty", "isPrototypeOf", "propertyIsEnumerable",
   "toLocaleString", "toString", "valueOf", "__proto__",
   "__defineGetter__", "__defineSetter__", "__lookupGetter__", "__lookupSetter__"]

/-- Update of the per-topic `{total, wrong}` counters for one question.
`topicStats` is a plain object, so `!topicStats[topic]` checks the whole
prototype chain: an existing own entry is updated in place (first-encounter
order preserved); for a topic named like an inherited `Object.prototype`
property the check sees the truthy inherited value, so no own entry is ever
created — the `+= 1` updates then mutate the inherited object, which
`Object.entries` (own properties only) never shows, leaving the counters
unchanged; any other absent topic gets a fresh entry.  (The stray `total`
and `wrong` properties such a miss leaves on the inherited object are `NaN`,
which is falsy, so they cannot alter the `!topicStats[...]` check for
later topics either.) -/
def bumpStat : List (String × ℕ × ℕ) → String → Bool → List (String × ℕ × ℕ)
  | [], topic, wrong =>
    if objectProtoKeys.contains topic then []
    else [(topic, 1, if wrong then 1 else 0)]
  | (t, tot, wr) :: rest, topic, wrong =>
    if t = topic then (t, tot + 1, if wrong then wr + 1 else wr) :: rest
    else (t, tot, wr) :: bumpStat rest topic wrong

/-- Result of the grading loop. -/
structure GradeRes where
  score : ℕ
  mistakes : List Mistake
  stats : List (String × ℕ × ℕ)
deriving DecidableEq

/-- The grading loop (part_001 lines 181-215), threading the topic counters
left to right. -/
def gradeAllAux (answers : List (String × AnsV)) :
    List Question → List (String × ℕ × ℕ) → ℕ × List Mistake × List (String × ℕ × ℕ)
  | [], stats => (0, [], stats)
  | q :: qs, stats =>
    if scoreQuestion q (lookupAns answers (toString q.id)) then
      ((gradeAllAux answers qs (bumpStat stats (topicOf q) false)).1 + 1,
       (gradeAllAux answers qs (bumpStat stats (topicOf q) false)).2)
    else
      ((gradeAllAux answers qs (bumpStat stats (topicOf q) true)).1,
       mistakeFor q (topicOf q) (lookupAns answers (toString q.id)) ::
         (gradeAllAux answers qs (bumpStat stats (topicOf q) true)).2.1,
       (gradeAllAux answers qs (bumpStat stats (topicOf q) true)).2.2)

/-- The Scoring Engine: score, mistakes and per-topic counters of one
submission. -/
def gradeAll (questions : List Question) (answers : List (String × AnsV)) : GradeRes :=
  { score := (gradeAllAux answers questions []).1,
    mistakes := (gradeAllAux answers questions []).2.1,
    stats := (gradeAllAux answers questions []).2.2 }

/-! ### The Guidance Engine (part_001 lines 218-234)

`topicStats` is a JavaScript object keyed by topic strings, so
`Object.entries` enumerates its own keys in ECMAScript order: keys that are
canonical array indices first, ascending numerically, then the remaining
string keys in insertion (first-encounter) order.  `Array.prototype.sort`
with the `wrong`-difference comparator is stable (ES2019), so ties keep
that enumeration order. -/

/-- A canonical array-index property key: "0", or a digit string without a
leading zero whose value is below 2^32 - 1. -/
def parseArrayIndexKey (s : String) : Option ℕ :=
  match s.toList with
  | [] => none
  | ['0'] => some 0
  | c :: cs =>
    if c ≠ '0' && (c :: cs).all (fun d => '0' ≤ d && d ≤ '9') then
      let n := digitsToNat ((c :: cs).map (fun d => d.toNat - '0'.toNat))
      if n < 2 ^ 32 - 1 then some n else none
    else none

/-- Whether a key is a canonical array index. -/
def isArrayIndexKey (s : String) : Bool := (parseArrayIndexKey s).isSome

/-- Numeric value of an array-index key (0 for non-index keys, unused). -/
def idxKeyVal (s : String) : ℕ := (parseArrayIndexKey s).getD 0

/-- Insert into a list sorted ascending by `key`. -/
def insertAsc {α : Type} (key : α → ℕ) (x : α) : List α → List α
  | [] => [x]
  | y :: ys => if key x < key y then x :: y :: ys else y :: insertAsc key x ys

/-- Insertion sort ascending by `key`. -/
def sortAsc {α : Type} (key : α → ℕ) : List α → List α
  | [] => []
  | x :: xs => insertAsc key x (sortAsc key xs)

/-- Embeds `Object.entries` enumeration order on the accumulated counters:
array-index keys first (ascending numerically), then the rest in insertion
order. -/
def jsEntriesReorder (stats : List (String × ℕ × ℕ)) : List (String × ℕ × ℕ) :=
  sortAsc (fun p => idxKeyVal p.1) (stats.filter (fun p => isArrayIndexKey p.1))
    ++ stats.filter (fun p => !isArrayIndexKey p.1)

/-- Stable insert for the descending sort by `wrong`: the new element goes
before the first entry with a not-larger count, so that elements already
placed (later in the original order) stay behind earlier ones on ties. -/
def insertDescStable (x : String × ℕ × ℕ) : List (String × ℕ × ℕ) → List (String × ℕ × ℕ)
  | [] => [x]
  | y :: ys => if x.2.2 < y.2.2 then y :: insertDescStable x ys else x :: y :: ys

/-- Stable sort, descending by the `wrong` counter (the
`(a, b) => b[1].wrong - a[1].wrong` comparator). -/
def sortDescStable : List (String × ℕ × ℕ) → List (String × ℕ × ℕ)
  | [] => []
  | x :: xs => insertDescStable x (sortDescStable xs)

/-- The weak-topic computation (part_001 lines 218-222): enumerate the
counters, keep topics with a positive `wrong` count, sort descending by
`wrong`, take the first four names. -/
def computeWeakTopics (stats : List (String × ℕ × ℕ)) : List String :=
  ((sortDescStable ((jsEntriesReorder stats).filter (fun p => 0 < p.2.2))).map (·.1)).take 4

/-- Embeds `t.replace(/_/g, " ")`. -/
def underscoresToSpaces (s : String) : String :=
  String.mk (s.toList.map (fun c => if c = '_' then ' ' else c))

/-- The topic-specific first suggestion line. -/
def focusLine (weakTopics : List String) : String :=
  "Focus next: " ++ String.intercalate ", " (weakTopics.map underscoresToSpaces)

/-- First fixed generic suggestion. -/
def suggestion1 : String :=
  "Review basics first: definitions, standard formulas, and canonical properties."

/-- Second fixed generic suggestion. -/
def suggestion2 : String :=
  "Practice 10 targeted problems per weak topic and redo similar questions."

/-- Third fixed generic suggestion. -/
def suggestion3 : String :=
  "Reattempt a shorter mock to validate improvements."

/-- The suggestions list (part_001 lines 224-234). -/
def buildSuggestions (weakTopics : List String) : List String :=
  (if weakTopics.isEmpty then [] else [focusLine weakTopics])
    ++ [suggestion1, suggestion2, suggestion3]

/-! ### The lifecycle mutations -/

/-- The errors thrown by the mutations. -/
inductive MutationErr where
  | notAuthenticated
  | notFound
  | notAuthorized
  | alreadySubmitted
deriving DecidableEq

/-- Fresh row id for an insert. -/
def freshId (db : Db) : ℕ := db.length

/-- Embeds `createAttempt` (part_001 lines 126-152): no check on `questions`
beyond the argument validator; inserts an open attempt. -/
def createAttempt (user : Option String) (questions : List Question)
    (now : ℚ) (db : Db) : Except MutationErr (ℕ × Db) :=
  match user with
  | none => .error .notAuthenticated
  | some u =>
    let attemptId := freshId db
    let att : Attempt :=
      { userId := u, questions, answers := [], score := 0,
        total := questions.length, durationSec := 0,
        guidance := { weakTopics := [], suggestions := [] },
        completed := false, startedAt := now, submittedAt := none }
    .ok (attemptId, (attemptId, att) :: db)

/-- The value returned by a successful `submitAttempt`. -/
structure SubmitRes where
  score : ℕ
  total : ℕ
  weakTopics : List String
  suggestions : List String
  mistakes : List Mistake
deriving DecidableEq

/-- Embeds `submitAttempt` (part_001 lines 154-253).  Guards run in source order:
authentication, then row existence, then ownership, then completion state;
the database is written only on the success path (the patch statement comes
after every throw). -/
def submitAttempt (user : Option String) (attemptId : ℕ)
    (answers : List (String × AnsV)) (durationSec : ℚ) (now : ℚ) (db : Db) :
    Except MutationErr SubmitRes × Db :=
  match user with
  | none => (.error .notAuthenticated, db)
  | some u =>
    match dbGet db attemptId with
    | none => (.error .notFound, db)
    | some attempt =>
      if attempt.userId ≠ u then (.error .notAuthorized, db)
      else if attempt.completed then (.error .alreadySubmitted, db)
      else
        let g := gradeAll attempt.questions answers
        let weakTopics := computeWeakTopics g.stats
        let suggestions := buildSuggestions weakTopics
        let att' : Attempt :=
          { attempt with
            answers := answers
            score := g.score
            durationSec := (max 0 ⌊durationSec⌋).toNat
            guidance := { weakTopics, suggestions }
            completed := true
            submittedAt := some now }
        (.ok { score := g.score, total := attempt.questions.length,
               weakTopics, suggestions, mistakes := g.mistakes },
         dbPatch db attemptId att')

/-- Longest possible candidate trace per key configuration. -/
def maxTrace : Bool → Bool → List Candidate
  | true, true =>
    .anthropic :: (models.map Candidate.openrouter ++ [.openrouter (models.headD "")])
  | true, false => [.anthropic]
  | false, true => models.map Candidate.openrouter ++ [.openrouter (models.headD "")]
  | false, false => []

/-- The concrete attempt used by the C4 witness. -/
def attC4w : Attempt :=
  { userId := "u",
    questions := [{ id := 1, qtype := .mcq, answer := some (.num 0) }],
    answers := [], score := 0, total := 1, durationSec := 0,
    guidance := { weakTopics := [], suggestions := [] }, completed := false,
    startedAt := 0, submittedAt := none }

/-- The concrete attempt used by the C10 witness. -/
def attC10w : Attempt :=
  { userId := "u",
    questions := [{ id := 1, qtype := .mcq, answer := some (.num 2) },
                  { id := 2, qtype := .nat, answer := some (.num 12) }],
    answers := [], score := 0, total := 2, durationSec := 0,
    guidance := { weakTopics := [], suggestions := [] }, completed := false,
    startedAt := 0, submittedAt := none }

/-- The weak-topic ranking as the spec phrases it: topics with at least one
miss, stable-sorted descending by miss count with ties in first-encounter
order (the accumulated counters are already in first-encounter order, so no
key reordering is applied), truncated to four. -/
def specWeakTopics (stats : List (String × ℕ × ℕ)) : List String :=
  ((sortDescStable (stats.filter (fun p => 0 < p.2.2))).map (·.1)).take 4

/-- The concrete attempt used by the C7 counterexample: topic "b" is
encountered first, topic "0" second, and both are missed once (a tie). -/
def attC7 : Attempt :=
  { userId := "u",
    questions := [{ id := 1, qtype := .mcq, answer := some (.num 0), topic := some "b" },
                  { id := 2, qtype := .mcq, answer := some (.num 0), topic := some "0" }],
    answers := [], score := 0, total := 2, durationSec := 0,
    guidance := { weakTopics := [], suggestions := [] }, completed := false,
    startedAt := 0, submittedAt := none }

/-- The concrete attempt used by the C7 witness (no array-index topics). -/
def attC7w : Attempt :=
  { userId := "u",
    questions := [{ id := 1, qtype := .mcq, answer := some (.num 0), topic := some "b" },
                  { id := 2, qtype := .mcq, answer := some (.num 0), topic := some "a" }],
    answers := [], score := 0, total := 2, durationSec := 0,
    guidance := { weakTopics := [], suggestions := [] }, completed := false,
    startedAt := 0, submittedAt := none }

/-- The concrete attempt for the second part of the C7 counterexample: its
only question has topic "constructor", the name of an inherited
Object.prototype property, so the truthiness check in the grader never
creates an own counter entry for it. -/
def attC7ctor : Attempt :=
  { userId := "u",
    questions := [{ id := 1, qtype := .mcq, answer := some (.num 0),
                    topic := some "constructor" }],
    answers := [], score := 0, total := 1, durationSec := 0,
    guidance := { weakTopics := [], suggestions := [] }, completed := false,
    startedAt := 0, submittedAt := none }

/-! ## Properties of the normalizer -/

/-- The Canonical Question invariant of the spec's data model, on normalized
questions: a multiple-choice question carries exactly 4 options and a
numeric correct index in [0, 3]; a numeric-answer question carries no
options. -/
def canonicalInv (q : NormQuestion) : Prop :=
  (q.qtype = .mcq → ∃ opts, q.options = some opts ∧ opts.length = 4 ∧
    ∃ a : ℚ, q.answer = .num a ∧ 0 ≤ a ∧ a ≤ 3) ∧
  (q.qtype = .nat → q.options = none)

theorem normOptions_length (j : Option Json) : (normOptions j).length = 4 := by
  unfold normOptions
  split
  · split
    next h => exact h
    next => rfl
  · rfl

theorem normMcqAnswer_bounds (j : Option Json) :
    0 ≤ normMcqAnswer j ∧ normMcqAnswer j ≤ 3 := by
  unfold normMcqAnswer
  split
  · split
    next h => exact h
    next => norm_num
  · norm_num

theorem normExplanation_isSome (j : Option Json) :
    (normExplanation j).isSome = jsTruthy j := by
  unfold normExplanation
  split
  · split <;> simp_all
  · rfl

theorem normElem_spec (topics : List String) (idx : ℕ) (e : Json)
    (he : e.isNull = false) :
    ∃ q, normElem topics idx e = .ok q ∧ q.id = idx + 1 ∧ canonicalInv q ∧
      q.explanation = normExplanation (jsGetD e "explanation") := by
  unfold normElem
  rw [he]
  simp only [Bool.false_eq_true, if_false]
  split
  · refine ⟨_, rfl, rfl, ⟨fun _ => ?_, fun h => nomatch h⟩, rfl⟩
    exact ⟨normOptions (jsGetD e "options"), rfl, normOptions_length _,
      normMcqAnswer (jsGetD e "answer"), rfl,
      (normMcqAnswer_bounds _).1, (normMcqAnswer_bounds _).2⟩
  · exact ⟨_, rfl, rfl, ⟨(fun h => nomatch h), fun _ => rfl⟩, rfl⟩

theorem normElem_ok_inv (topics : List String) (idx : ℕ) (e : Json)
    (q : NormQuestion) (h : normElem topics idx e = .ok q) :
    e.isNull = false ∧ q.id = idx + 1 ∧ canonicalInv q ∧
      q.explanation = normExplanation (jsGetD e "explanation") := by
  have he : e.isNull = false := by
    by_contra hc
    have he' : e.isNull = true := by
      cases hb : e.isNull
      · exact absurd hb hc
      · rfl
    unfold normElem at h
    rw [he'] at h
    simp at h
  obtain ⟨q', hq', hid, hinv, hexp⟩ := normElem_spec topics idx e he
  rw [h] at hq'
  injection hq' with hqq
  subst hqq
  exact ⟨he, hid, hinv, hexp⟩

theorem normElem_ne_parseErr (topics : List String) (idx : ℕ) (e : Json) :
    normElem topics idx e ≠ .error .parseErr := by
  unfold normElem
  split
  · intro h
    simp at h
  · split <;> intro h <;> simp at h

theorem normElems_ok_props (topics : List String) :
    ∀ elems idx qs, normElems topics idx elems = .ok qs →
      qs.length = elems.length ∧ (∀ q ∈ qs, canonicalInv q) ∧
      qs.map NormQuestion.id = List.range' (idx + 1) elems.length := by
  intro elems
  induction elems with
  | nil =>
    intro idx qs h
    unfold normElems at h
    injection h with h'
    subst h'
    simp [List.range']
  | cons e es ih =>
    intro idx qs h
    unfold normElems at h
    cases hne : normElem topics idx e with
    | error err => rw [hne] at h; simp at h
    | ok nq =>
      rw [hne] at h
      cases hrest : normElems topics (idx + 1) es with
      | error err => rw [hrest] at h; simp at h
      | ok rest =>
        rw [hrest] at h
        injection h with h'
        subst h'
        obtain ⟨hlen, hinv, hids⟩ := ih (idx + 1) rest hrest
        obtain ⟨_, hid, hcinv, _⟩ := normElem_ok_inv topics idx e nq hne
        refine ⟨by simp [hlen], ?_, ?_⟩
        · intro q hq
          rcases List.mem_cons.mp hq with hq | hq
          · subst hq; exact hcinv
          · exact hinv q hq
        · simp only [List.length_cons, List.range'_succ, List.map_cons, hid, hids]

theorem normElems_total (topics : List String) :
    ∀ elems idx, (∀ e ∈ elems, e.isNull = false) →
      ∃ qs, normElems topics idx elems = .ok qs := by
  intro elems
  induction elems with
  | nil => exact fun idx _ => ⟨[], rfl⟩
  | cons e es ih =>
    intro idx hnull
    obtain ⟨nq, hnq, -, -, -⟩ :=
      normElem_spec topics idx e (hnull e (List.mem_cons_self e es))
    obtain ⟨rest, hrest⟩ := ih (idx + 1) (fun x hx => hnull x (List.mem_cons_of_mem _ hx))
    refine ⟨nq :: rest, ?_⟩
    unfold normElems
    rw [hnq, hrest]

theorem normElems_ne_parseErr (topics : List String) :
    ∀ elems idx, normElems topics idx elems ≠ .error .parseErr := by
  intro elems
  induction elems with
  | nil => intro idx h; simp [normElems] at h
  | cons e es ih =>
    intro idx h
    unfold normElems at h
    cases hne : normElem topics idx e with
    | error err =>
      rw [hne] at h
      injection h with h'
      subst h'
      exact normElem_ne_parseErr topics idx e hne
    | ok nq =>
      rw [hne] at h
      cases hrest : normElems topics (idx + 1) es with
      | error err =>
        rw [hrest] at h
        injection h with h'
        subst h'
        exact ih (idx + 1) hrest
      | ok rest => rw [hrest] at h; simp at h

theorem normalizeContent_parseErr_iff (nq : ℕ) (topics : List String) (content : String) :
    normalizeContent nq topics content = .error .parseErr ↔
      ∀ elems, jsonParse ((extractArr content).getD content) ≠ some (.arr elems) := by
  unfold normalizeContent
  cases hp : jsonParse ((extractArr content).getD content) with
  | none => simp
  | some j =>
    cases j with
    | arr elems =>
      constructor
      · intro h
        exact absurd h (normElems_ne_parseErr topics _ 0)
      · intro h
        exact absurd rfl (h elems)
    | null => simp
    | bool b => simp
    | num q => simp
    | str s => simp
    | obj fs => simp

theorem normalizeContent_arr_spec (nq : ℕ) (topics : List String) (content : String)
    (elems : List Json) (hp : jsonParse ((extractArr content).getD content) = some (.arr elems))
    (hnull : ∀ e ∈ elems.take nq, e.isNull = false) :
    ∃ qs, normalizeContent nq topics content = .ok qs ∧
      qs.length = (elems.take nq).length ∧ (∀ q ∈ qs, canonicalInv q) ∧
      qs.map NormQuestion.id = List.range' 1 qs.length := by
  obtain ⟨qs, hqs⟩ := normElems_total topics (elems.take nq) 0 hnull
  obtain ⟨hlen, hinv, hids⟩ := normElems_ok_props topics (elems.take nq) 0 qs hqs
  refine ⟨qs, ?_, hlen, hinv, ?_⟩
  · unfold normalizeContent
    rw [hp]
    exact hqs
  · rw [hids, hlen]

theorem tryProv_ok_props (nq : ℕ) (topics : List String) (c : CallResult)
    (qs : List NormQuestion) (h : tryProv nq topics c = .ok qs) :
    qs.length ≤ nq ∧ ∀ q ∈ qs, canonicalInv q := by
  cases c with
  | netErr => simp [tryProv] at h
  | content body =>
    simp only [tryProv] at h
    cases hn : normalizeContent nq topics body with
    | error e => rw [hn] at h; simp at h
    | ok qs2 =>
      rw [hn] at h
      injection h with h'
      subst h'
      unfold normalizeContent at hn
      cases hp : jsonParse ((extractArr body).getD body) with
      | none => rw [hp] at hn; simp at hn
      | some j =>
        rw [hp] at hn
        cases j with
        | arr elems =>
          obtain ⟨hlen, hinv, -⟩ := normElems_ok_props topics (elems.take nq) 0 qs2 hn
          refine ⟨?_, hinv⟩
          rw [hlen, List.length_take]
          exact min_le_left nq elems.length
        | null => simp at hn
        | bool b => simp at hn
        | num q => simp at hn
        | str s => simp at hn
        | obj fs => simp at hn

/-- C6 (amended): the normalizer throws its parse error exactly when the
substring from the first opening bracket to the last closing bracket (or the
whole text, when there is no such substring) does not parse as a JSON array;
on a parsed array whose consumed elements are all non-`null` it never throws
and re-numbers ids sequentially from 1.  (The original claim fails: the
single extracted substring can miss a valid array elsewhere in the text, and
a `null` element makes the element mapping throw a TypeError; see the
counterexample.) -/
theorem claim6_normalizer_amended (nq : ℕ) (topics : List String) (content : String) :
    (normalizeContent nq topics content = .error .parseErr ↔
      ∀ elems, jsonParse ((extractArr content).getD content) ≠ some (.arr elems)) ∧
    (∀ elems, jsonParse ((extractArr content).getD content) = some (.arr elems) →
      (∀ e ∈ elems.take nq, e.isNull = false) →
      ∃ qs, normalizeContent nq topics content = .ok qs ∧
        qs.map NormQuestion.id = List.range' 1 qs.length) := by
  refine ⟨normalizeContent_parseErr_iff nq topics content, fun elems hp hnull => ?_⟩
  obtain ⟨qs, hok, -, -, hids⟩ := normalizeContent_arr_spec nq topics content elems hp hnull
  exact ⟨qs, hok, hids⟩

/-- C6 counterexample: the text "[1,2] x [3,4]" contains the syntactically
valid JSON array "[1,2]", yet the normalizer throws its parse error (the
greedy bracket regex grabs the whole span, which is not valid JSON); and on
the valid JSON array "[null]" the normalizer throws a TypeError instead of
never throwing. -/
theorem claim6_counterexample :
    jsonParse "[1,2]" = some (.arr [.num 1, .num 2]) ∧
    "[1,2] x [3,4]" = "[1,2]" ++ " x [3,4]" ∧
    normalizeContent 10 [] "[1,2] x [3,4]" = .error .parseErr ∧
    jsonParse "[null]" = some (.arr [.null]) ∧
    normalizeContent 10 [] "[null]" = .error .typeErr := by
  refine ⟨?_, ?_, ?_, ?_, ?_⟩ <;> with_unfolding_all rfl

/-- Witness for C6: on the concrete text "[1,2]" the amended theorem yields
a successful normalization with ids renumbered from 1. -/
theorem claim6_witness :
    ∃ qs, normalizeContent 10 ["t"] "[1,2]" = .ok qs ∧
      qs.map NormQuestion.id = List.range' 1 qs.length := by
  refine (claim6_normalizer_amended 10 ["t"] "[1,2]").2 [.num 1, .num 2]
    (by with_unfolding_all rfl) ?_
  intro e he
  simp at he
  rcases he with rfl | rfl <;> rfl

/-! ## Properties of the Local Generator -/

theorem jsMod_bounds (a b : ℚ) (ha : 0 ≤ a) (hb : 0 < b) :
    0 ≤ jsMod a b ∧ jsMod a b < b := by
  have hdiv : 0 ≤ a / b := div_nonneg ha hb.le
  unfold jsMod ratTrunc
  rw [if_pos hdiv]
  have hmul : b * (a / b) = a := by field_simp
  have hfl : (⌊a / b⌋ : ℚ) ≤ a / b := Int.floor_le _
  have hfu : a / b < (⌊a / b⌋ : ℚ) + 1 := Int.lt_floor_add_one _
  constructor
  · nlinarith
  · nlinarith

theorem jsOrZero_range (q : ℚ) (m : ℕ) (h0 : 0 ≤ q) (hm : q < (m : ℚ))
    (hsmall : (m : ℤ) ≤ 2 ^ 31) :
    0 ≤ jsOrZero q ∧ jsOrZero q < (m : ℤ) := by
  unfold jsOrZero ratTrunc toInt32
  rw [if_pos h0]
  have h1 : 0 ≤ ⌊q⌋ := Int.floor_nonneg.mpr h0
  have h2 : ⌊q⌋ < (m : ℤ) := by
    have hle : (⌊q⌋ : ℚ) ≤ q := Int.floor_le q
    have : (⌊q⌋ : ℚ) < (m : ℚ) := lt_of_le_of_lt hle hm
    exact_mod_cast this
  omega

theorem baseMCQs_entries : ∀ p ∈ baseMCQs,
    p.options.length = 4 ∧ 0 ≤ p.ans ∧ p.ans ≤ 3 := by decide

theorem mkLocalQ_spec (topicsList : List String) (w : Bool) (i : ℕ) :
    ∃ q, mkLocalQ topicsList w i = .ok q ∧ canonicalInv q ∧
      q.explanation.isSome = w ∧ q.id = i + 1 := by
  have ha : (0 : ℚ) ≤ (i : ℚ) / 2 := by positivity
  unfold mkLocalQ
  by_cases hpar : i % 2 = 0
  · rw [if_pos hpar]
    obtain ⟨hm0, hm1⟩ :=
      jsMod_bounds ((i : ℚ) / 2) ((baseMCQs.length : ℚ)) ha (by norm_num [baseMCQs])
    obtain ⟨hz0, hz1⟩ := jsOrZero_range _ baseMCQs.length hm0 hm1 (by decide)
    have hlt : (jsOrZero (jsMod ((i : ℚ) / 2) ((baseMCQs.length : ℚ)))).toNat <
        baseMCQs.length := by
      omega
    have hidx : jsIndex baseMCQs (jsOrZero (jsMod ((i : ℚ) / 2) ((baseMCQs.length : ℚ)))) =
        some (baseMCQs.get
          ⟨(jsOrZero (jsMod ((i : ℚ) / 2) ((baseMCQs.length : ℚ)))).toNat, hlt⟩) := by
      unfold jsIndex
      rw [if_pos hz0, List.get?_eq_get hlt]
    rw [hidx]
    obtain ⟨ho, ha1, ha2⟩ := baseMCQs_entries _ (List.get_mem baseMCQs _ hlt)
    refine ⟨_, rfl, ⟨fun _ => ?_, fun h => nomatch h⟩, by cases w <;> rfl, rfl⟩
    exact ⟨_, rfl, by simpa using ho, _, rfl, ha1, ha2⟩
  · rw [if_neg hpar]
    obtain ⟨hm0, hm1⟩ :=
      jsMod_bounds ((i : ℚ) / 2) ((baseNATs.length : ℚ)) ha (by norm_num [baseNATs])
    obtain ⟨hz0, hz1⟩ := jsOrZero_range _ baseNATs.length hm0 hm1 (by decide)
    have hlt : (jsOrZero (jsMod ((i : ℚ) / 2) ((baseNATs.length : ℚ)))).toNat <
        baseNATs.length := by
      omega
    have hidx : jsIndex baseNATs (jsOrZero (jsMod ((i : ℚ) / 2) ((baseNATs.length : ℚ)))) =
        some (baseNATs.get
          ⟨(jsOrZero (jsMod ((i : ℚ) / 2) ((baseNATs.length : ℚ)))).toNat, hlt⟩) := by
      unfold jsIndex
      rw [if_pos hz0, List.get?_eq_get hlt]
    rw [hidx]
    refine ⟨_, rfl, ⟨(fun h => nomatch h), fun _ => rfl⟩, by cases w <;> rfl, rfl⟩

theorem buildLocalAux_spec (topicsList : List String) (w : Bool) :
    ∀ k i, ∃ l, buildLocalAux topicsList w i k = .ok l ∧ l.length = k ∧
      ∀ q ∈ l, canonicalInv q ∧ q.explanation.isSome = w := by
  intro k
  induction k with
  | zero => exact fun i => ⟨[], rfl, rfl, by simp⟩
  | succ k ih =>
    intro i
    obtain ⟨nq, hnq, hinv, hexp, -⟩ := mkLocalQ_spec topicsList w i
    obtain ⟨rest, hrest, hlen, hrinv⟩ := ih (i + 1)
    refine ⟨nq :: rest, ?_, by simp [hlen], ?_⟩
    · unfold buildLocalAux
      rw [hnq, hrest]
    · intro q hq
      rcases List.mem_cons.mp hq with rfl | hq
      · exact ⟨hinv, hexp⟩
      · exact hrinv q hq

theorem buildLocalQuestions_spec (n : ℕ) (topicsList : List String) (w : Bool) :
    ∃ l, buildLocalQuestions n topicsList w = .ok l ∧ l.length = max 5 (min 65 n) ∧
      ∀ q ∈ l, canonicalInv q ∧ q.explanation.isSome = w := by
  exact buildLocalAux_spec topicsList w (max 5 (min 65 n)) 0

/-! ## Properties of the Fallback Orchestrator -/

theorem tryModelsFrom_trace (nq : ℕ) (topics : List String) (env : ℕ → CallResult) :
    ∀ ms i, (∃ rest, (tryModelsFrom nq topics env i ms).2 ++ rest = ms.map Candidate.openrouter) ∧
      ((tryModelsFrom nq topics env i ms).1 = none →
        (tryModelsFrom nq topics env i ms).2 = ms.map Candidate.openrouter) := by
  intro ms
  induction ms with
  | nil => exact fun i => ⟨⟨[], rfl⟩, fun _ => rfl⟩
  | cons m ms ih =>
    intro i
    unfold tryModelsFrom
    cases htp : tryProv nq topics (env i) with
    | ok qs =>
      refine ⟨⟨ms.map Candidate.openrouter, rfl⟩, fun h => ?_⟩
      simp at h
    | error e =>
      obtain ⟨⟨rest, hrest⟩, hnone⟩ := ih (i + 1)
      refine ⟨⟨rest, ?_⟩, fun h => ?_⟩
      · simp only [List.cons_append, List.map_cons, hrest]
      · simp only [List.map_cons]
        rw [hnone h]

theorem tryModelsFrom_ok_src (nq : ℕ) (topics : List String) (env : ℕ → CallResult) :
    ∀ ms i qs, (tryModelsFrom nq topics env i ms).1 = some qs →
      ∃ j, i ≤ j ∧ j < i + ms.length ∧ tryProv nq topics (env j) = .ok qs := by
  intro ms
  induction ms with
  | nil => intro i qs h; simp [tryModelsFrom] at h
  | cons m ms ih =>
    intro i qs h
    unfold tryModelsFrom at h
    cases htp : tryProv nq topics (env i) with
    | ok qs2 =>
      rw [htp] at h
      simp at h
      subst h
      exact ⟨i, le_refl i, by simp, htp⟩
    | error e =>
      rw [htp] at h
      simp at h
      obtain ⟨j, hj1, hj2, hj3⟩ := ih (i + 1) qs h
      refine ⟨j, by omega, by simp only [List.length_cons]; omega, hj3⟩

theorem generateExamT_cases (args : GenArgs) (hasA hasO : Bool) (env : ℕ → CallResult) :
    (∃ qs, (generateExamT args hasA hasO env).1 = .ok qs ∧
      ((∃ i, i < 5 ∧ tryProv (examCount args) (examTopics args) (env i) = .ok qs) ∨
        buildLocalQuestions (examCount args) (examTopics args) (examIncl args) = .ok qs)) ∧
    (∃ rest, (generateExamT args hasA hasO env).2 ++ rest = maxTrace hasA hasO) := by
  obtain ⟨lq, hlq, -, -⟩ :=
    buildLocalQuestions_spec (examCount args) (examTopics args) (examIncl args)
  cases hasA
  case false =>
    cases hasO
    case false =>
      refine ⟨⟨lq, ?_, .inr hlq⟩, ⟨[], ?_⟩⟩
      · simp [generateExamT, hlq]
      · simp [generateExamT, maxTrace]
    case true =>
      obtain ⟨⟨rest, hrest⟩, hnone⟩ :=
        tryModelsFrom_trace (examCount args) (examTopics args) env models 0
      rcases htm : tryModelsFrom (examCount args) (examTopics args) env 0 models with ⟨o, tr⟩
      rw [htm] at hrest hnone
      simp only at hrest hnone
      cases o with
      | some qs =>
        obtain ⟨j, hj1, hj2, hj3⟩ :=
          tryModelsFrom_ok_src (examCount args) (examTopics args) env models 0 qs
            (by rw [htm])
        refine ⟨⟨qs, ?_, .inl ⟨j, ?_, hj3⟩⟩,
          ⟨rest ++ [.openrouter (models.headD "")], ?_⟩⟩
        · simp [generateExamT, htm]
        · simp [models] at hj2
          omega
        · simp only [generateExamT, htm, maxTrace]
          simp only [Bool.false_eq_true, if_false, if_true]
          rw [← List.append_assoc, hrest]
      | none =>
        have htr : tr = models.map Candidate.openrouter := hnone rfl
        cases htp : tryProv (examCount args) (examTopics args) (env 3) with
        | ok qs =>
          refine ⟨⟨qs, ?_, .inl ⟨3, by norm_num, htp⟩⟩, ⟨[], ?_⟩⟩
          · simp [generateExamT, htm, htp]
          · simp [generateExamT, htm, htp, maxTrace, htr]
        | error e =>
          refine ⟨⟨lq, ?_, .inr hlq⟩, ⟨[], ?_⟩⟩
          · simp [generateExamT, htm, htp, hlq]
          · simp [generateExamT, htm, htp, maxTrace, htr]
  case true =>
    cases htp0 : tryProv (examCount args) (examTopics args) (env 0) with
    | ok qs =>
      refine ⟨⟨qs, ?_, .inl ⟨0, by norm_num, htp0⟩⟩, ?_⟩
      · simp [generateExamT, htp0]
      · cases hasO
        case false => exact ⟨[], by simp [generateExamT, htp0, maxTrace]⟩
        case true =>
          exact ⟨models.map Candidate.openrouter ++ [.openrouter (models.headD "")],
            by simp [generateExamT, htp0, maxTrace]⟩
    | error e0 =>
      cases hasO
      case false =>
        refine ⟨⟨lq, ?_, .inr hlq⟩, ⟨[], ?_⟩⟩
        · simp [generateExamT, htp0, hlq]
        · simp [generateExamT, htp0, maxTrace]
      case true =>
        obtain ⟨⟨rest, hrest⟩, hnone⟩ :=
          tryModelsFrom_trace (examCount args) (examTopics args) env models 1
        rcases htm : tryModelsFrom (examCount args) (examTopics args) env 1 models with ⟨o, tr⟩
        rw [htm] at hrest hnone
        simp only at hrest hnone
        cases o with
        | some qs =>
          obtain ⟨j, hj1, hj2, hj3⟩ :=
            tryModelsFrom_ok_src (examCount args) (examTopics args) env models 1 qs
              (by rw [htm])
          refine ⟨⟨qs, ?_, .inl ⟨j, ?_, hj3⟩⟩,
            ⟨rest ++ [.openrouter (models.headD "")], ?_⟩⟩
          · simp [generateExamT, htp0, htm]
          · simp [models] at hj2
            omega
          · simp only [generateExamT, htp0, htm, maxTrace]
            simp only [if_true]
            rw [List.cons_append, ← List.append_assoc, hrest]
        | none =>
          have htr : tr = models.map Candidate.openrouter := hnone rfl
          cases htp : tryProv (examCount args) (examTopics args) (env 4) with
          | ok qs =>
            refine ⟨⟨qs, ?_, .inl ⟨4, by norm_num, htp⟩⟩, ⟨[], ?_⟩⟩
            · simp [generateExamT, htp0, htm, htp]
            · simp [generateExamT, htp0, htm, htp, maxTrace, htr]
          | error e =>
            refine ⟨⟨lq, ?_, .inr hlq⟩, ⟨[], ?_⟩⟩
            · simp [generateExamT, htp0, htm, htp, hlq]
            · simp [generateExamT, htp0, htm, htp, maxTrace, htr]

theorem clampCount_bounds (n : Option ℤ) : 5 ≤ clampCount n ∧ clampCount n ≤ 65 := by
  unfold clampCount
  cases n with
  | none => simp
  | some m => simp only [Option.getD]; omega

/-- C2: `generateExam` never propagates a provider-layer error to the
caller: for every input and every behaviour of the external providers the
orchestrator returns a successful question sequence (a provider's
normalized output or the local fallback), and the Local Generator path is
total — it always returns a question sequence and never throws. -/
theorem claim2_no_provider_error (args : GenArgs) (hasA hasO : Bool)
    (env : ℕ → CallResult) :
    (∃ qs, generateExam args hasA hasO env = .ok qs) ∧
    (∀ n topicsList w, ∃ l, buildLocalQuestions n topicsList w = .ok l) := by
  constructor
  · obtain ⟨⟨qs, hqs, -⟩, -⟩ := generateExamT_cases args hasA hasO env
    exact ⟨qs, hqs⟩
  · intro n t w
    obtain ⟨l, hl, -, -⟩ := buildLocalQuestions_spec n t w
    exact ⟨l, hl⟩

/-- C1 (amended): every result of `generateExam` has at most
clamp(n, 5, 65) questions (default n = 10 when absent), each satisfying the
Canonical Question invariants (multiple-choice: exactly 4 options and a
correct index in [0, 3]; numeric-answer: no options); on the local-generator
path (no provider keys configured) the length is exactly the clamp.  (The
original "exactly clamp" fails on the provider path: a provider returning a
shorter — even empty — array than requested is accepted as-is; see the
counterexample.) -/
theorem claim1_generateExam_length_inv (args : GenArgs) (hasA hasO : Bool)
    (env : ℕ → CallResult) :
    (∀ qs, generateExam args hasA hasO env = .ok qs →
      qs.length ≤ clampCount args.numQuestions ∧ ∀ q ∈ qs, canonicalInv q) ∧
    (hasA = false → hasO = false →
      ∃ qs, generateExam args hasA hasO env = .ok qs ∧
        qs.length = clampCount args.numQuestions) := by
  constructor
  · intro qs hqs
    obtain ⟨⟨qs2, hqs2, hsrc⟩, -⟩ := generateExamT_cases args hasA hasO env
    rw [generateExam] at hqs
    rw [hqs] at hqs2
    injection hqs2 with h
    subst h
    rcases hsrc with ⟨i, -, hprov⟩ | hloc
    · exact tryProv_ok_props _ _ _ _ hprov
    · obtain ⟨l, hl, hlen, hinv⟩ :=
        buildLocalQuestions_spec (examCount args) (examTopics args) (examIncl args)
      rw [hloc] at hl
      injection hl with h
      subst h
      refine ⟨?_, fun q hq => (hinv q hq).1⟩
      rw [hlen]
      have hb := clampCount_bounds args.numQuestions
      unfold examCount at *
      omega
  · rintro rfl rfl
    obtain ⟨l, hl, hlen, -⟩ :=
      buildLocalQuestions_spec (examCount args) (examTopics args) (examIncl args)
    refine ⟨l, ?_, ?_⟩
    · show (generateExamT args false false env).1 = .ok l
      simp [generateExamT, hl]
    · rw [hlen]
      have hb := clampCount_bounds args.numQuestions
      unfold examCount
      omega

/-- C1 counterexample: with the default count (clamp = 10), a provider
answering the valid empty JSON array makes `generateExam` return zero
questions, not clamp(10, 5, 65) = 10. -/
theorem claim1_counterexample :
    generateExam {} false true (fun _ => .content "[]") = .ok [] ∧
    clampCount (({} : GenArgs).numQuestions) = 10 ∧
    ([] : List NormQuestion).length ≠ clampCount (({} : GenArgs).numQuestions) := by
  refine ⟨?_, by with_unfolding_all rfl, by decide⟩
  with_unfolding_all rfl

/-- Witness for C1: with no keys configured the local path returns exactly
the clamped default count. -/
theorem claim1_witness :
    ∃ qs, generateExam {} false false (fun _ => .netErr) = .ok qs ∧
      qs.length = clampCount (({} : GenArgs).numQuestions) :=
  (claim1_generateExam_length_inv {} false false (fun _ => .netErr)).2 rfl rfl

/-- C3 (amended): the candidate trace is always an initial segment of the
fixed maximal sequence — Anthropic (when its key is configured), then the
three OpenRouter models in priority order, then one extra retry of the
first model — so every candidate except the first model is tried at most
once, while the first model may be tried twice; and a result that is not
the local fallback is exactly the normalized output of a single provider
call, accepted wholesale (no merging).  (The original claim fails: the
first model is retried after all models fail, and a provider returning zero
usable questions is accepted rather than skipped; see the counterexample.) -/
theorem claim3_trace_wholesale (args : GenArgs) (hasA hasO : Bool)
    (env : ℕ → CallResult) :
    (∃ rest, (generateExamT args hasA hasO env).2 ++ rest = maxTrace hasA hasO) ∧
    (∀ qs, (generateExamT args hasA hasO env).1 = .ok qs →
      (∃ i, i < 5 ∧ tryProv (examCount args) (examTopics args) (env i) = .ok qs) ∨
        buildLocalQuestions (examCount args) (examTopics args) (examIncl args) = .ok qs) := by
  obtain ⟨⟨qs2, hqs2, hsrc⟩, htrace⟩ := generateExamT_cases args hasA hasO env
  refine ⟨htrace, fun qs hqs => ?_⟩
  rw [hqs] at hqs2
  injection hqs2 with h
  subst h
  exact hsrc

/-- C3 counterexample: with only the OpenRouter key configured and every
call failing, the first model appears twice in the attempt trace (the final
retry); and a provider answering the empty array is accepted — the
orchestrator returns zero questions after a single attempt instead of
proceeding to the next candidate. -/
theorem claim3_counterexample :
    ((generateExamT {} false true (fun _ => .netErr)).2.count
      (Candidate.openrouter "anthropic/claude-3-haiku") = 2) ∧
    ((generateExamT {} false true (fun _ => .content "[]")).1 = .ok []) ∧
    ((generateExamT {} false true (fun _ => .content "[]")).2 =
      [Candidate.openrouter "anthropic/claude-3-haiku"]) := by
  refine ⟨?_, ?_, ?_⟩ <;> with_unfolding_all rfl

/-- Witness for C3: the trace of a concrete all-failing run is an initial
segment of the maximal candidate sequence. -/
theorem claim3_witness :
    ∃ rest, (generateExamT {} true true (fun _ => .netErr)).2 ++ rest =
      maxTrace true true :=
  (claim3_trace_wholesale {} true true (fun _ => .netErr)).1

/-- C8 (amended): a normalized provider question carries an explanation iff
the source element's `explanation` field is truthy — regardless of
`includeExplanations`, which the normalization never consults (the flag only
shapes the prompt); the local generator attaches its generic explanation
exactly when the flag is set.  (The original claim fails: with explanations
not requested, a provider-supplied explanation is still preserved; see the
counterexample.) -/
theorem claim8_explanations (topics : List String) (idx : ℕ) (e : Json) :
    (e.isNull = false → ∃ q, normElem topics idx e = .ok q ∧
      q.explanation.isSome = jsTruthy (jsGetD e "explanation")) ∧
    (∀ topicsList w i q, mkLocalQ topicsList w i = .ok q →
      q.explanation.isSome = w) := by
  constructor
  · intro he
    obtain ⟨q, hq, -, -, hexp⟩ := normElem_spec topics idx e he
    refine ⟨q, hq, ?_⟩
    rw [hexp, normExplanation_isSome]
  · intro tl w i q hq
    obtain ⟨q2, hq2, -, hexp, -⟩ := mkLocalQ_spec tl w i
    rw [hq] at hq2
    injection hq2 with h
    subst h
    exact hexp

/-- C8 counterexample: with `includeExplanations = false`, a provider
element carrying an explanation still yields a normalized question with
that explanation attached. -/
theorem claim8_counterexample :
    (({ includeExplanations := some false } : GenArgs).includeExplanations = some false) ∧
    ((generateExam { includeExplanations := some false } false true
        (fun _ => .content "[\x7b\"type\":\"nat\",\"explanation\":\"x\"\x7d]")).map
      (fun l => l.map NormQuestion.explanation) = .ok [some "x"]) := by
  refine ⟨rfl, ?_⟩
  with_unfolding_all rfl

/-- Witness for C8: a truthy explanation on a concrete non-null element is
preserved by normalization. -/
theorem claim8_witness :
    ∃ q, normElem [] 0 (.obj [("explanation", .str "x")]) = .ok q ∧
      q.explanation.isSome =
        jsTruthy (jsGetD (.obj [("explanation", .str "x")]) "explanation") :=
  (claim8_explanations [] 0 (.obj [("explanation", .str "x")])).1 rfl

/-! ## Properties of the Scoring Engine and attempt lifecycle -/

theorem mistakeFor_id (q : Question) (t : String) (ua : Option AnsV) :
    (mistakeFor q t ua).id = q.id := by
  unfold mistakeFor
  split <;> rfl

theorem mistakeFor_yours (q : Question) (t : String) (ua : Option AnsV) :
    (mistakeFor q t ua).yours =
      (match ua with
       | none => "blank"
       | some v => ansToString v) := by
  unfold mistakeFor
  split <;> rfl

theorem scoreQuestion_none (q : Question) : scoreQuestion q none = false := by
  unfold scoreQuestion
  cases hqt : q.qtype
  · rfl
  · cases hc : ansToNum q.answer <;> rfl

theorem scoreQuestion_mcq_iff (q : Question) (a : ℚ) (ua : Option AnsV)
    (hq : q.qtype = .mcq) (ha : q.answer = some (.num a)) :
    scoreQuestion q ua = true ↔ ua = some (.num a) := by
  unfold scoreQuestion
  rw [hq, ha]
  cases ua with
  | none => simp
  | some v =>
    cases v with
    | num x => simp
    | str s => simp

theorem scoreQuestion_nat_iff (q : Question) (ua : Option AnsV) (hq : q.qtype = .nat) :
    scoreQuestion q ua = true ↔
      ∃ c u, ansToNum q.answer = some c ∧ ansToNum ua = some u ∧ |u - c| < 1 / 100 := by
  unfold scoreQuestion
  rw [hq]
  cases hc : ansToNum q.answer with
  | none => simp
  | some c =>
    cases hu : ansToNum ua with
    | none => simp
    | some u => simp

theorem gradeAllAux_partition (answers : List (String × AnsV)) :
    ∀ qs stats, (gradeAllAux answers qs stats).1 +
      (gradeAllAux answers qs stats).2.1.length = qs.length := by
  intro qs
  induction qs with
  | nil => intro stats; rfl
  | cons q qs ih =>
    intro stats
    unfold gradeAllAux
    by_cases hs : scoreQuestion q (lookupAns answers (toString q.id)) = true
    · rw [if_pos hs]
      simp only [List.length_cons]
      have := ih (bumpStat stats (topicOf q) false)
      omega
    · rw [if_neg hs]
      simp only [List.length_cons]
      have := ih (bumpStat stats (topicOf q) true)
      omega

theorem gradeAllAux_mistakes_src (answers : List (String × AnsV)) :
    ∀ qs stats m, m ∈ (gradeAllAux answers qs stats).2.1 →
      ∃ q, q ∈ qs ∧ m.id = q.id ∧
        m.yours = (match lookupAns answers (toString q.id) with
                   | none => "blank"
                   | some v => ansToString v) := by
  intro qs
  induction qs with
  | nil => intro stats m hm; simp [gradeAllAux] at hm
  | cons q qs ih =>
    intro stats m hm
    unfold gradeAllAux at hm
    by_cases hs : scoreQuestion q (lookupAns answers (toString q.id)) = true
    · rw [if_pos hs] at hm
      obtain ⟨q2, hq2, hid, hyours⟩ := ih _ m hm
      exact ⟨q2, List.mem_cons_of_mem _ hq2, hid, hyours⟩
    · rw [if_neg hs] at hm
      rcases List.mem_cons.mp hm with rfl | hm
      · exact ⟨q, List.mem_cons_self q qs, mistakeFor_id q _ _, mistakeFor_yours q _ _⟩
      · obtain ⟨q2, hq2, hid, hyours⟩ := ih _ m hm
        exact ⟨q2, List.mem_cons_of_mem _ hq2, hid, hyours⟩

theorem gradeAllAux_mistakes_ids (answers : List (String × AnsV)) :
    ∀ qs stats, ((gradeAllAux answers qs stats).2.1.map Mistake.id).Sublist
      (qs.map Question.id) := by
  intro qs
  induction qs with
  | nil => intro stats; simp [gradeAllAux]
  | cons q qs ih =>
    intro stats
    unfold gradeAllAux
    by_cases hs : scoreQuestion q (lookupAns answers (toString q.id)) = true
    · rw [if_pos hs]
      simp only [List.map_cons]
      exact (ih (bumpStat stats (topicOf q) false)).cons _
    · rw [if_neg hs]
      simp only [List.map_cons, mistakeFor_id]
      exact (ih (bumpStat stats (topicOf q) true)).cons₂ _

theorem dbGet_dbPatch_same (db : Db) (attemptId : ℕ) (att2 : Attempt)
    (h : (dbGet db attemptId).isSome = true) :
    dbGet (dbPatch db attemptId att2) attemptId = some att2 := by
  induction db with
  | nil => simp [dbGet] at h
  | cons p db ih =>
    by_cases hp : p.1 = attemptId
    · unfold dbGet dbPatch
      simp [hp]
    · unfold dbGet at h
      unfold dbGet dbPatch at ih ⊢
      simp [hp] at h ih ⊢
      obtain ⟨x, hx⟩ := h
      exact ih x hx
theorem submitAttempt_success (u : String) (attemptId : ℕ)
    (answers : List (String × AnsV)) (durationSec now : ℚ) (db : Db) (att : Attempt)
    (hget : dbGet db attemptId = some att) (howner : att.userId = u)
    (hopen : att.completed = false) :
    submitAttempt (some u) attemptId answers durationSec now db =
      (.ok { score := (gradeAll att.questions answers).score,
             total := att.questions.length,
             weakTopics := computeWeakTopics (gradeAll att.questions answers).stats,
             suggestions := buildSuggestions
               (computeWeakTopics (gradeAll att.questions answers).stats),
             mistakes := (gradeAll att.questions answers).mistakes },
       dbPatch db attemptId
         { att with
           answers := answers
           score := (gradeAll att.questions answers).score
           durationSec := (max 0 ⌊durationSec⌋).toNat
           guidance := { weakTopics := computeWeakTopics (gradeAll att.questions answers).stats,
                         suggestions := buildSuggestions
                           (computeWeakTopics (gradeAll att.questions answers).stats) }
           completed := true
           submittedAt := some now }) := by
  unfold submitAttempt
  rw [hget]
  subst howner
  dsimp only
  rw [if_neg (by simp), if_neg (by simp [hopen])]

theorem submitAttempt_ok_inv (u : String) (attemptId : ℕ)
    (answers : List (String × AnsV)) (durationSec now : ℚ) (db : Db)
    (r : SubmitRes) (db1 : Db)
    (h : submitAttempt (some u) attemptId answers durationSec now db = (.ok r, db1)) :
    ∃ att, dbGet db attemptId = some att ∧ att.userId = u ∧ att.completed = false := by
  unfold submitAttempt at h
  cases hget : dbGet db attemptId with
  | none => rw [hget] at h; simp at h
  | some att =>
    rw [hget] at h
    dsimp only at h
    by_cases how : att.userId ≠ u
    · rw [if_pos how] at h
      simp at h
    · rw [if_neg how] at h
      by_cases hcom : att.completed = true
      · rw [if_pos hcom] at h
        simp at h
      · exact ⟨att, rfl, by simpa using how, by simpa using hcom⟩

/-- C4: for every open, owned attempt and every submitted answer mapping,
`submitAttempt` succeeds (absent or malformed submissions never fail it);
a multiple-choice question with stored numeric index `a` is scored correct
iff the submission is exactly the number `a`; a numeric-answer question is
scored correct iff both stored and submitted values coerce to numbers whose
absolute difference is strictly below 0.01; an absent submission is always
incorrect; the score never exceeds the number of questions; and an
unanswered question's mistake entry renders `yours` as the text "blank". -/
theorem claim4_scoring (u : String) (attemptId : ℕ) (db : Db) (att : Attempt)
    (answers : List (String × AnsV)) (durationSec now : ℚ)
    (hget : dbGet db attemptId = some att) (howner : att.userId = u)
    (hopen : att.completed = false) :
    ∃ r db1, submitAttempt (some u) attemptId answers durationSec now db = (.ok r, db1) ∧
      r.score ≤ att.questions.length ∧
      (∀ q ∈ att.questions, ∀ a : ℚ, q.qtype = .mcq → q.answer = some (.num a) →
        (scoreQuestion q (lookupAns answers (toString q.id)) = true ↔
          lookupAns answers (toString q.id) = some (.num a))) ∧
      (∀ q ∈ att.questions, q.qtype = .nat →
        (scoreQuestion q (lookupAns answers (toString q.id)) = true ↔
          ∃ c uu, ansToNum q.answer = some c ∧
            ansToNum (lookupAns answers (toString q.id)) = some uu ∧
            |uu - c| < 1 / 100)) ∧
      (∀ q : Question, scoreQuestion q none = false) ∧
      (∀ q : Question, ∀ s, q.qtype = .mcq → scoreQuestion q (some (.str s)) = false) ∧
      (∀ q ∈ att.questions, lookupAns answers (toString q.id) = none →
        ∀ m ∈ r.mistakes, m.id = q.id → m.yours = "blank") := by
  refine ⟨_, _,
    submitAttempt_success u attemptId answers durationSec now db att hget howner hopen,
    ?_, ?_, ?_, ?_, ?_, ?_⟩
  · have hpart := gradeAllAux_partition answers att.questions []
    show (gradeAllAux answers att.questions []).1 ≤ att.questions.length
    omega
  · intro q _ a hmcq hans
    exact scoreQuestion_mcq_iff q a _ hmcq hans
  · intro q _ hnat
    exact scoreQuestion_nat_iff q _ hnat
  · exact scoreQuestion_none
  · intro q s hmcq
    unfold scoreQuestion
    rw [hmcq]
  · intro q _ hnone m hm hid
    obtain ⟨q2, _, hid2, hyours⟩ := gradeAllAux_mistakes_src answers att.questions [] m hm
    have hkey : toString q2.id = toString q.id := by rw [← hid2, hid]
    rw [hkey, hnone] at hyours
    simpa using hyours

/-- Witness for C4: a concrete open owned attempt submits successfully. -/
theorem claim4_witness :
    (submitAttempt (some "u") 0 [] 0 0 [(0, attC4w)]).1.isOk = true := by
  obtain ⟨r, db1, hok, -⟩ :=
    claim4_scoring "u" 0 [(0, attC4w)] attC4w [] 0 0 (by decide) rfl rfl
  rw [hok]
  rfl

/-- C5: `submitAttempt` evaluates its guards in the order existence →
ownership → state with a distinct error for each (ownership-before-state is
visible on an attempt that is both foreign and completed), and a second
submission of an already-submitted attempt fails with the
already-submitted conflict leaving the stored attempt (state, score,
answers, guidance) unchanged — no error path writes to the database. -/
theorem claim5_guards (u : String) (attemptId : ℕ) (answers : List (String × AnsV))
    (durationSec now : ℚ) (db : Db) :
    (dbGet db attemptId = none →
      submitAttempt (some u) attemptId answers durationSec now db =
        (.error .notFound, db)) ∧
    (∀ att, dbGet db attemptId = some att → att.userId ≠ u →
      submitAttempt (some u) attemptId answers durationSec now db =
        (.error .notAuthorized, db)) ∧
    (∀ att, dbGet db attemptId = some att → att.userId = u → att.completed = true →
      submitAttempt (some u) attemptId answers durationSec now db =
        (.error .alreadySubmitted, db)) ∧
    (∀ r db1, submitAttempt (some u) attemptId answers durationSec now db = (.ok r, db1) →
      ∀ answers2 durationSec2 now2,
        submitAttempt (some u) attemptId answers2 durationSec2 now2 db1 =
          (.error .alreadySubmitted, db1)) := by
  refine ⟨?_, ?_, ?_, ?_⟩
  · intro hget
    unfold submitAttempt
    rw [hget]
  · intro att hget hne
    unfold submitAttempt
    rw [hget]
    dsimp only
    rw [if_pos hne]
  · intro att hget howner hcomp
    unfold submitAttempt
    rw [hget]
    dsimp only
    rw [if_neg (by simp [howner]), if_pos hcomp]
  · intro r db1 h answers2 durationSec2 now2
    obtain ⟨att, hget, howner, hopen⟩ :=
      submitAttempt_ok_inv u attemptId answers durationSec now db r db1 h
    have hsucc :=
      submitAttempt_success u attemptId answers durationSec now db att hget howner hopen
    rw [h] at hsucc
    have hdb1 : db1 = dbPatch db attemptId
        { att with
          answers := answers
          score := (gradeAll att.questions answers).score
          durationSec := (max 0 ⌊durationSec⌋).toNat
          guidance := { weakTopics := computeWeakTopics (gradeAll att.questions answers).stats,
                        suggestions := buildSuggestions
                          (computeWeakTopics (gradeAll att.questions answers).stats) }
          completed := true
          submittedAt := some now } := congrArg Prod.snd hsucc
    have hget1 : dbGet db1 attemptId = some
        { att with
          answers := answers
          score := (gradeAll att.questions answers).score
          durationSec := (max 0 ⌊durationSec⌋).toNat
          guidance := { weakTopics := computeWeakTopics (gradeAll att.questions answers).stats,
                        suggestions := buildSuggestions
                          (computeWeakTopics (gradeAll att.questions answers).stats) }
          completed := true
          submittedAt := some now } := by
      rw [hdb1]
      exact dbGet_dbPatch_same db attemptId _ (by rw [hget]; rfl)
    unfold submitAttempt
    rw [hget1]
    dsimp only
    rw [if_neg (by simp [howner]), if_pos rfl]

/-- Witness for C5: an unknown attempt id fails with the not-found error and
leaves the (empty) database untouched. -/
theorem claim5_witness :
    submitAttempt (some "u") 0 [] 0 0 [] = (.error .notFound, []) :=
  (claim5_guards "u" 0 [] 0 0 []).1 rfl

/-- C9 (amended): `createAttempt` accepts every questions sequence —
including the empty one (there is no non-emptiness guard) — and produces an
attempt in the open state with totalQuestions equal to the sequence length,
score 0 and an empty answers mapping. -/
theorem claim9_createAttempt (u : String) (questions : List Question) (now : ℚ) (db : Db) :
    ∃ attemptId db2 att, createAttempt (some u) questions now db = .ok (attemptId, db2) ∧
      dbGet db2 attemptId = some att ∧ att.completed = false ∧
      att.total = questions.length ∧ att.score = 0 ∧ att.answers = [] ∧
      att.questions = questions ∧ att.submittedAt = none := by
  refine ⟨freshId db, _,
    { userId := u, questions := questions, answers := [], score := 0,
      total := questions.length, durationSec := 0,
      guidance := { weakTopics := [], suggestions := [] },
      completed := false, startedAt := now, submittedAt := none },
    rfl, ?_, rfl, rfl, rfl, rfl, rfl, rfl⟩
  unfold dbGet
  simp [List.find?_cons]

/-- C9 counterexample: the empty questions sequence is accepted, not
rejected — `createAttempt` inserts an open attempt with `total = 0`. -/
theorem claim9_counterexample :
    createAttempt (some "u") [] 0 [] =
      .ok (0, [(0, { userId := "u", questions := [], answers := [], score := 0,
                     total := 0, durationSec := 0,
                     guidance := { weakTopics := [], suggestions := [] },
                     completed := false, startedAt := 0, submittedAt := none })]) := by
  rfl

/-- C10: on every successful submission each question is counted exactly
once — the returned score plus the number of returned mistakes equals the
number of questions — and, when the attempt's question ids are pairwise
distinct (the Canonical Question uniqueness invariant), no id appears twice
in the mistakes list. -/
theorem claim10_partition (u : String) (attemptId : ℕ) (db : Db) (att : Attempt)
    (answers : List (String × AnsV)) (durationSec now : ℚ)
    (hget : dbGet db attemptId = some att) (howner : att.userId = u)
    (hopen : att.completed = false)
    (hids : (att.questions.map Question.id).Nodup) :
    ∃ r db1, submitAttempt (some u) attemptId answers durationSec now db = (.ok r, db1) ∧
      r.score + r.mistakes.length = att.questions.length ∧
      (r.mistakes.map Mistake.id).Nodup := by
  refine ⟨_, _,
    submitAttempt_success u attemptId answers durationSec now db att hget howner hopen,
    ?_, ?_⟩
  · exact gradeAllAux_partition answers att.questions []
  · exact hids.sublist (gradeAllAux_mistakes_ids answers att.questions [])

/-- Witness for C10: a concrete two-question submission partitions into
score plus mistakes with distinct mistake ids. -/
theorem claim10_witness :
    ∃ r db1, submitAttempt (some "u") 0 [("1", .num 2)] 0 0 [(0, attC10w)] =
      (.ok r, db1) ∧
      r.score + r.mistakes.length = attC10w.questions.length ∧
      (r.mistakes.map Mistake.id).Nodup :=
  claim10_partition "u" 0 [(0, attC10w)] attC10w [("1", .num 2)] 0 0
    (by decide) rfl rfl (by decide)

/-! ## Properties of the Guidance Engine -/

theorem bumpStat_keys : ∀ (stats : List (String × ℕ × ℕ)) (t : String) (w : Bool) p,
    p ∈ bumpStat stats t w →
      p.1 ∈ stats.map (·.1) ∨ (p.1 = t ∧ objectProtoKeys.contains t = false) := by
  intro stats
  induction stats with
  | nil =>
    intro t w p hp
    unfold bumpStat at hp
    by_cases hproto : objectProtoKeys.contains t = true
    · rw [if_pos hproto] at hp
      simp at hp
    · rw [if_neg hproto] at hp
      simp at hp
      subst hp
      exact .inr ⟨rfl, by simpa using hproto⟩
  | cons q stats ih =>
    intro t w p hp
    rcases q with ⟨tq, tot, wr⟩
    unfold bumpStat at hp
    by_cases ht : tq = t
    · rw [if_pos ht] at hp
      rcases List.mem_cons.mp hp with rfl | hp
      · exact .inl (by simp)
      · refine .inl ?_
        simp only [List.map_cons]
        exact List.mem_cons_of_mem _ (List.mem_map_of_mem _ hp)
    · rw [if_neg ht] at hp
      rcases List.mem_cons.mp hp with rfl | hp
      · exact .inl (by simp)
      · rcases ih t w p hp with h | h
        · exact .inl (List.mem_cons_of_mem _ h)
        · exact .inr h

theorem bumpStat_keys_map (stats : List (String × ℕ × ℕ)) (t : String) (w : Bool) :
    ∀ k ∈ (bumpStat stats t w).map (·.1),
      k ∈ stats.map (·.1) ∨ (k = t ∧ objectProtoKeys.contains t = false) := by
  intro k hk
  obtain ⟨p, hp, rfl⟩ := List.mem_map.mp hk
  exact bumpStat_keys stats t w p hp

theorem gradeAllAux_stats_keys (answers : List (String × AnsV)) :
    ∀ qs stats p, p ∈ (gradeAllAux answers qs stats).2.2 →
      p.1 ∈ stats.map (·.1) ∨ ∃ q, q ∈ qs ∧ p.1 = topicOf q ∧
        objectProtoKeys.contains (topicOf q) = false := by
  intro qs
  induction qs with
  | nil =>
    intro stats p hp
    exact .inl (List.mem_map_of_mem _ hp)
  | cons q qs ih =>
    intro stats p hp
    unfold gradeAllAux at hp
    by_cases hs : scoreQuestion q (lookupAns answers (toString q.id)) = true
    · rw [if_pos hs] at hp
      rcases ih _ p hp with h | ⟨q2, hq2, ht, hpr⟩
      · rcases bumpStat_keys_map stats (topicOf q) false p.1 h with h2 | ⟨h2, hpr⟩
        · exact .inl h2
        · exact .inr ⟨q, List.mem_cons_self q qs, h2, h2 ▸ hpr⟩
      · exact .inr ⟨q2, List.mem_cons_of_mem _ hq2, ht, hpr⟩
    · rw [if_neg hs] at hp
      rcases ih _ p hp with h | ⟨q2, hq2, ht, hpr⟩
      · rcases bumpStat_keys_map stats (topicOf q) true p.1 h with h2 | ⟨h2, hpr⟩
        · exact .inl h2
        · exact .inr ⟨q, List.mem_cons_self q qs, h2, h2 ▸ hpr⟩
      · exact .inr ⟨q2, List.mem_cons_of_mem _ hq2, ht, hpr⟩

theorem jsEntriesReorder_id (stats : List (String × ℕ × ℕ))
    (h : ∀ p ∈ stats, isArrayIndexKey p.1 = false) :
    jsEntriesReorder stats = stats := by
  unfold jsEntriesReorder
  have h1 : stats.filter (fun p => isArrayIndexKey p.1) = [] := by
    rw [List.filter_eq_nil_iff]
    intro p hp
    simp [h p hp]
  have h2 : stats.filter (fun p => !isArrayIndexKey p.1) = stats := by
    rw [List.filter_eq_self]
    intro p hp
    simp [h p hp]
  rw [h1, h2]
  rfl

theorem mem_insertDescStable (x y : String × ℕ × ℕ) (l : List (String × ℕ × ℕ)) :
    y ∈ insertDescStable x l ↔ y = x ∨ y ∈ l := by
  induction l with
  | nil => simp [insertDescStable]
  | cons z l ih =>
    unfold insertDescStable
    by_cases h : x.2.2 < z.2.2
    · rw [if_pos h]
      simp only [List.mem_cons, ih]
      tauto
    · rw [if_neg h]
      simp only [List.mem_cons]

theorem mem_sortDescStable (y : String × ℕ × ℕ) (l : List (String × ℕ × ℕ)) :
    y ∈ sortDescStable l ↔ y ∈ l := by
  induction l with
  | nil => simp [sortDescStable]
  | cons x l ih =>
    unfold sortDescStable
    rw [mem_insertDescStable]
    simp [ih]

theorem buildSuggestions_spec (w : List String) :
    (w = [] → buildSuggestions w = [suggestion1, suggestion2, suggestion3]) ∧
    (w ≠ [] → buildSuggestions w = focusLine w :: [suggestion1, suggestion2, suggestion3]) ∧
    3 ≤ (buildSuggestions w).length := by
  cases w with
  | nil => exact ⟨fun _ => rfl, (fun h => absurd rfl h), by simp [buildSuggestions]⟩
  | cons t ts =>
    refine ⟨fun h => by simp at h, fun _ => rfl, ?_⟩
    simp [buildSuggestions]


theorem bumpStat_preserve : ∀ (stats : List (String × ℕ × ℕ)) (t2 : String) (w : Bool)
    (t : String), (∃ p, p ∈ stats ∧ p.1 = t ∧ 0 < p.2.2) →
    ∃ p, p ∈ bumpStat stats t2 w ∧ p.1 = t ∧ 0 < p.2.2 := by
  intro stats
  induction stats with
  | nil =>
    intro t2 w t h
    obtain ⟨p, hp, -, -⟩ := h
    simp at hp
  | cons q stats ih =>
    intro t2 w t h
    obtain ⟨p, hp, ht, hw⟩ := h
    rcases q with ⟨tq, tot, wr⟩
    unfold bumpStat
    by_cases he : tq = t2
    · rw [if_pos he]
      rcases List.mem_cons.mp hp with rfl | hp
      · refine ⟨(tq, tot + 1, if w then wr + 1 else wr),
          List.mem_cons_self _ _, ht, ?_⟩
        have hw2 : 0 < wr := hw
        show 0 < if w then wr + 1 else wr
        split <;> omega
      · exact ⟨p, List.mem_cons_of_mem _ hp, ht, hw⟩
    · rw [if_neg he]
      rcases List.mem_cons.mp hp with rfl | hp
      · exact ⟨(tq, tot, wr), List.mem_cons_self _ _, ht, hw⟩
      · obtain ⟨p2, hp2, ht2, hw2⟩ := ih t2 w t ⟨p, hp, ht, hw⟩
        exact ⟨p2, List.mem_cons_of_mem _ hp2, ht2, hw2⟩

theorem bumpStat_hit (stats : List (String × ℕ × ℕ)) (t : String)
    (hproto : objectProtoKeys.contains t = false) :
    ∃ p, p ∈ bumpStat stats t true ∧ p.1 = t ∧ 0 < p.2.2 := by
  induction stats with
  | nil =>
    unfold bumpStat
    rw [if_neg (by rw [hproto]; exact Bool.false_ne_true)]
    exact ⟨(t, 1, 1), List.mem_cons_self _ _, rfl, Nat.one_pos⟩
  | cons q stats ih =>
    rcases q with ⟨tq, tot, wr⟩
    unfold bumpStat
    by_cases he : tq = t
    · rw [if_pos he]
      refine ⟨(tq, tot + 1, wr + 1), List.mem_cons_self _ _, he, ?_⟩
      show 0 < wr + 1
      omega
    · rw [if_neg he]
      obtain ⟨p, hp, ht, hw⟩ := ih
      exact ⟨p, List.mem_cons_of_mem _ hp, ht, hw⟩

theorem gradeAllAux_stats_preserve (answers : List (String × AnsV)) :
    ∀ qs stats t, (∃ p, p ∈ stats ∧ p.1 = t ∧ 0 < p.2.2) →
      ∃ p, p ∈ (gradeAllAux answers qs stats).2.2 ∧ p.1 = t ∧ 0 < p.2.2 := by
  intro qs
  induction qs with
  | nil => exact fun stats t h => h
  | cons q qs ih =>
    intro stats t h
    unfold gradeAllAux
    by_cases hs : scoreQuestion q (lookupAns answers (toString q.id)) = true
    · rw [if_pos hs]
      exact ih _ t (bumpStat_preserve stats (topicOf q) false t h)
    · rw [if_neg hs]
      exact ih _ t (bumpStat_preserve stats (topicOf q) true t h)

theorem gradeAllAux_stats_complete (answers : List (String × AnsV)) :
    ∀ qs stats q, q ∈ qs → objectProtoKeys.contains (topicOf q) = false →
      scoreQuestion q (lookupAns answers (toString q.id)) = false →
      ∃ p, p ∈ (gradeAllAux answers qs stats).2.2 ∧ p.1 = topicOf q ∧ 0 < p.2.2 := by
  intro qs
  induction qs with
  | nil =>
    intro stats q hq
    simp at hq
  | cons q0 qs ih =>
    intro stats q hq hproto hmiss
    unfold gradeAllAux
    rcases List.mem_cons.mp hq with rfl | hq
    · rw [if_neg (by rw [hmiss]; exact Bool.false_ne_true)]
      exact gradeAllAux_stats_preserve answers qs _ _ (bumpStat_hit stats (topicOf q) hproto)
    · by_cases hs : scoreQuestion q0 (lookupAns answers (toString q0.id)) = true
      · rw [if_pos hs]
        exact ih _ q hq hproto hmiss
      · rw [if_neg hs]
        exact ih _ q hq hproto hmiss

/-- C7 (amended): for every submission whose question topics are not
integer-like (array-index) strings, the weak-topic list is exactly the
spec's ranking — the topics with at least one miss, stable-sorted descending
by miss count with ties in first-encounter order, truncated to four — and
the suggestions list is the topic-specific first line exactly when a weak
topic exists, followed by the three fixed generic lines (so always at least
3 entries, in a fixed order).  Two quirks limit the spec's phrasing.  First,
the unrestricted first-encounter tie-break fails: JavaScript object key
order enumerates integer-like topic names first, ascending numerically.
Second, the topic counters live in a plain JavaScript object, so a topic
named like an inherited Object.prototype property (such as "constructor")
never gets an own entry — the truthiness guard sees the inherited value —
and is omitted from the counters and from the weak-topic list even when
missed; accordingly every weak topic here has a non-prototype name, and the
completeness conjunct (every missed topic is counted with a positive miss
count) is restricted to non-prototype topic names.  Both quirks are
exhibited by the counterexample. -/
theorem claim7_guidance (u : String) (attemptId : ℕ) (db : Db) (att : Attempt)
    (answers : List (String × AnsV)) (durationSec now : ℚ)
    (hget : dbGet db attemptId = some att) (howner : att.userId = u)
    (hopen : att.completed = false)
    (htopics : ∀ q ∈ att.questions, isArrayIndexKey (topicOf q) = false) :
    ∃ r db1, submitAttempt (some u) attemptId answers durationSec now db = (.ok r, db1) ∧
      r.weakTopics = specWeakTopics (gradeAll att.questions answers).stats ∧
      r.weakTopics.length ≤ 4 ∧
      (∀ t ∈ r.weakTopics, ∃ p, p ∈ (gradeAll att.questions answers).stats ∧
        p.1 = t ∧ 0 < p.2.2) ∧
      (∀ t ∈ r.weakTopics, objectProtoKeys.contains t = false) ∧
      (∀ q ∈ att.questions, objectProtoKeys.contains (topicOf q) = false →
        scoreQuestion q (lookupAns answers (toString q.id)) = false →
        ∃ p, p ∈ (gradeAll att.questions answers).stats ∧
          p.1 = topicOf q ∧ 0 < p.2.2) ∧
      (r.weakTopics = [] → r.suggestions = [suggestion1, suggestion2, suggestion3]) ∧
      (r.weakTopics ≠ [] →
        r.suggestions = focusLine r.weakTopics :: [suggestion1, suggestion2, suggestion3]) ∧
      3 ≤ r.suggestions.length := by
  have hkeys : ∀ p ∈ (gradeAll att.questions answers).stats,
      isArrayIndexKey p.1 = false ∧ objectProtoKeys.contains p.1 = false := by
    intro p hp
    rcases gradeAllAux_stats_keys answers att.questions [] p hp with h | ⟨q, hq, ht, hpr⟩
    · simp at h
    · rw [ht]
      exact ⟨htopics q hq, hpr⟩
  have hweak : computeWeakTopics (gradeAll att.questions answers).stats =
      specWeakTopics (gradeAll att.questions answers).stats := by
    unfold computeWeakTopics specWeakTopics
    rw [jsEntriesReorder_id _ (fun p hp => (hkeys p hp).1)]
  have hmem : ∀ t ∈ computeWeakTopics (gradeAll att.questions answers).stats,
      ∃ p, p ∈ (gradeAll att.questions answers).stats ∧ p.1 = t ∧ 0 < p.2.2 := by
    intro t htw
    have htw2 : t ∈ specWeakTopics (gradeAll att.questions answers).stats := by
      rw [← hweak]
      exact htw
    unfold specWeakTopics at htw2
    have htw3 := List.take_subset _ _ htw2
    obtain ⟨p, hp, rfl⟩ := List.mem_map.mp htw3
    have hp2 : p ∈ (gradeAll att.questions answers).stats.filter (fun p => 0 < p.2.2) :=
      (mem_sortDescStable p _).mp hp
    have hp3 : p ∈ (gradeAll att.questions answers).stats := List.mem_of_mem_filter hp2
    have hpos : 0 < p.2.2 := by
      have := List.of_mem_filter hp2
      simpa using this
    exact ⟨p, hp3, rfl, hpos⟩
  refine ⟨_, _,
    submitAttempt_success u attemptId answers durationSec now db att hget howner hopen,
    hweak, ?_, hmem, ?_, ?_, ?_, ?_, ?_⟩
  · show (computeWeakTopics (gradeAll att.questions answers).stats).length ≤ 4
    rw [hweak]
    unfold specWeakTopics
    exact List.length_take_le 4 _
  · intro t htw
    obtain ⟨p, hp, hpt, -⟩ := hmem t htw
    rw [← hpt]
    exact (hkeys p hp).2
  · intro q hq hproto hmiss
    exact gradeAllAux_stats_complete answers att.questions [] q hq hproto hmiss
  · intro h
    exact (buildSuggestions_spec _).1 h
  · intro h
    exact (buildSuggestions_spec _).2.1 h
  · exact (buildSuggestions_spec _).2.2

/-- C7 counterexample, two parts.  First, with tied miss counts the claim's
first-encounter order would put "b" first, but the code returns the
array-index topic name "0" first (JavaScript object key enumeration order).
Second, an attempt whose only question has the topic "constructor" — an
inherited Object.prototype property name — is missed, yet the counters stay
empty and the returned weak-topic list is empty (while the mistake is still
recorded), because the truthiness guard sees the inherited value and never
creates an own entry. -/
theorem claim7_counterexample :
    (gradeAll attC7.questions []).stats = [("b", 1, 1), ("0", 1, 1)] ∧
    specWeakTopics (gradeAll attC7.questions []).stats = ["b", "0"] ∧
    ((submitAttempt (some "u") 0 [] 0 0 [(0, attC7)]).1.map SubmitRes.weakTopics =
      .ok ["0", "b"]) ∧
    (["0", "b"] : List String) ≠ ["b", "0"] ∧
    (gradeAll attC7ctor.questions []).stats = [] ∧
    ((submitAttempt (some "u") 0 [] 0 0 [(0, attC7ctor)]).1.map SubmitRes.weakTopics =
      .ok []) ∧
    ((submitAttempt (some "u") 0 [] 0 0 [(0, attC7ctor)]).1.map
      (fun r => r.mistakes.length) = .ok 1) := by
  refine ⟨by with_unfolding_all rfl, by with_unfolding_all rfl,
    by with_unfolding_all rfl, by decide, by with_unfolding_all rfl,
    by with_unfolding_all rfl, by with_unfolding_all rfl⟩

/-- Witness for C7: on a concrete attempt with ordinary topic names the
returned weak topics equal the spec-side ranking. -/
theorem claim7_witness :
    ∃ r db1, submitAttempt (some "u") 0 [] 0 0 [(0, attC7w)] = (.ok r, db1) ∧
      r.weakTopics = specWeakTopics (gradeAll attC7w.questions []).stats := by
  obtain ⟨r, db1, hok, hspec, -⟩ :=
    claim7_guidance "u" 0 [(0, attC7w)] attC7w [] 0 0 (by decide) rfl rfl (by decide)
  exact ⟨r, db1, hok, hspec⟩

end GateSpec
